import Mathlib

/-!
Verification development for jellyporter: a shallow embedding of the
reconciliation store, the diff queries, the sync engine's apply phase,
the scheduler's cooldown shedding, and the Jellyfin client's paginated
listing, together with theorems settling the specification's claims.

Machine integers are modelled as `Int`/`Nat`; Go's `int64` bounds are made
explicit where the code's behaviour depends on them.  Times are Unix
seconds modelled as `Int`; Go's zero `time.Time` is modelled as `none` of
an `Option Int`.  SQL REAL columns that are only carried through (never
compared arithmetically) are modelled as `Rat`.
-/

namespace Jellyporter

/-! ## Provider-id sanitization (sqlite.go, `SanitizeAndParseInt64`) -/

/-- Numeric value of a list of decimal digit characters. -/
def digitsToNat (cs : List Char) : Nat :=
  cs.foldl (fun acc c => acc * 10 + (c.toNat - '0'.toNat)) 0

/-- Go's `strconv.ParseInt(s, 10, 64)` restricted to the strings the caller
can produce (digits and minus signs only): an optional single leading minus
followed by at least one digit, value within the signed 64-bit range;
anything else is a parse error. -/
def parseInt64 (s : String) : Option Int :=
  match s.toList with
  | [] => none
  | '-' :: rest =>
    if rest ≠ [] ∧ rest.all Char.isDigit then
      let v : Int := -(digitsToNat rest : Int)
      if -(2 ^ 63) ≤ v then some v else none
    else none
  | l =>
    if l.all Char.isDigit then
      let v : Int := (digitsToNat l : Int)
      if v ≤ 2 ^ 63 - 1 then some v else none
    else none

/-- `SanitizeAndParseInt64` (sqlite.go): keep decimal digits and every minus
sign, then parse the result as a base-10 signed 64-bit integer; empty, `"-"`
or unparseable input yields 0. -/
def SanitizeAndParseInt64 (input : String) : Int :=
  let filtered := input.toList.filter (fun r => r.isDigit || r == '-')
  let cleaned := String.mk filtered
  if cleaned = "" ∨ cleaned = "-" then 0
  else
    match parseInt64 cleaned with
    | none => 0
    | some result => result

/-! ## Jellyfin item model (internal/jellyfin/types.go) -/

structure ProviderIDs where
  IMDB : String
  TMDB : String
  TVDB : String
  deriving DecidableEq

/-- `UserData`; `LastPlayedDate` is `none` for Go's zero `time.Time` and
`some t` for a time whose Unix seconds are `t`. -/
structure UserData where
  PlaybackPositionTicks : Int
  PlayedPercentage : Rat
  IsFavorite : Bool
  LastPlayedDate : Option Int
  deriving DecidableEq

structure Item where
  Name : String
  ID : String
  UserData : UserData
  ProviderIDs : ProviderIDs
  SeriesName : String
  SeasonName : String
  Runtime : Int
  deriving DecidableEq

/-! ## Ingest parameters (sqlite.go, `MovieToInsertMovieParam` /
`EpisodeToInsertEpisodeParam`); `sql.NullInt64` with `Valid: v != 0` is
modelled as `Option Int` that is `none` exactly when the parsed value is 0. -/

/-- `sql.NullInt64{Int64: v, Valid: v != 0}` as stored in a nullable column. -/
def nullInt64 (v : Int) : Option Int :=
  if v ≠ 0 then some v else none

/-- `watchedDate`: 0 when `LastPlayedDate` is the zero time, else its Unix
seconds. -/
def watchedDateOfItem (it : Item) : Int :=
  match it.UserData.LastPlayedDate with
  | none => 0
  | some t => t

structure InsertMovieParams where
  Server : String
  Name : String
  LocalID : String
  ImdbID : Option Int
  TmdbID : Option Int
  Runtime : Int
  WatchedDate : Int
  WatchedProgress : Rat
  WatchedPositionTicks : Int
  IsFavorite : Bool
  deriving DecidableEq

structure InsertEpisodeParams where
  Server : String
  Name : String
  LocalID : String
  SeriesName : String
  SeasonName : String
  ImdbID : Option Int
  TmdbID : Option Int
  TvdbID : Option Int
  Runtime : Int
  WatchedDate : Int
  WatchedProgress : Rat
  WatchedPositionTicks : Int
  IsFavorite : Bool
  deriving DecidableEq

def MovieToInsertMovieParam (server : String) (movie : Item) : InsertMovieParams :=
  { Server := server
    Name := movie.Name
    LocalID := movie.ID
    ImdbID := nullInt64 (SanitizeAndParseInt64 movie.ProviderIDs.IMDB)
    TmdbID := nullInt64 (SanitizeAndParseInt64 movie.ProviderIDs.TMDB)
    Runtime := movie.Runtime
    WatchedDate := watchedDateOfItem movie
    WatchedProgress := movie.UserData.PlayedPercentage
    WatchedPositionTicks := movie.UserData.PlaybackPositionTicks
    IsFavorite := movie.UserData.IsFavorite }

def EpisodeToInsertEpisodeParam (server : String) (episode : Item) : InsertEpisodeParams :=
  { Server := server
    Name := episode.Name
    LocalID := episode.ID
    SeriesName := episode.SeriesName
    SeasonName := episode.SeasonName
    ImdbID := nullInt64 (SanitizeAndParseInt64 episode.ProviderIDs.IMDB)
    TmdbID := nullInt64 (SanitizeAndParseInt64 episode.ProviderIDs.TMDB)
    TvdbID := nullInt64 (SanitizeAndParseInt64 episode.ProviderIDs.TVDB)
    Runtime := episode.Runtime
    WatchedDate := watchedDateOfItem episode
    WatchedProgress := episode.UserData.PlayedPercentage
    WatchedPositionTicks := episode.UserData.PlaybackPositionTicks
    IsFavorite := episode.UserData.IsFavorite }

/-! ## Match keys (queries/movies.sql and the episode query)

The SQL `CASE` tests `imdb_id IS NOT NULL AND imdb_id != ''`: in SQLite an
integer compares unequal to the text literal `''` (numeric values sort
before text), so on a non-null INTEGER column the second conjunct is always
true and the test reduces to the null check.  `CONCAT` renders the stored
integer in canonical decimal. -/

/-- The movie `match_key` CASE expression over the stored column values. -/
def matchKeyMovieCase (imdb tmdb : Option Int) (name : String) (runtime : Int) : String :=
  match imdb with
  | some v => "imdb_" ++ toString v
  | none =>
    match tmdb with
    | some v => "tmdb_" ++ toString v
    | none => "name_" ++ name ++ "_" ++ toString runtime

/-- The episode `match_key` CASE expression over the stored column values. -/
def matchKeyEpisodeCase (imdb tmdb tvdb : Option Int) (name seriesName seasonName : String)
    (runtime : Int) : String :=
  match imdb with
  | some v => "imdb_" ++ toString v
  | none =>
    match tmdb with
    | some v => "tmdb_" ++ toString v
    | none =>
      match tvdb with
      | some v => "tvdb_" ++ toString v
      | none =>
        "name_" ++ name ++ "_" ++ seriesName ++ "_" ++ seasonName ++ "_" ++ toString runtime

/-- Match key a movie item receives once ingested and grouped: composition
of `MovieToInsertMovieParam` with the SQL CASE. -/
def movieMatchKeyOfItem (it : Item) : String :=
  let p := MovieToInsertMovieParam "" it
  matchKeyMovieCase p.ImdbID p.TmdbID p.Name p.Runtime

/-- Match key an episode item receives once ingested and grouped. -/
def episodeMatchKeyOfItem (it : Item) : String :=
  let p := EpisodeToInsertEpisodeParam "" it
  matchKeyEpisodeCase p.ImdbID p.TmdbID p.TvdbID p.Name p.SeriesName p.SeasonName p.Runtime

/-! ## The claim's reference match key (C2, from the spec's words)

The spec describes sanitization as retaining "only decimal digits and a
leading minus sign", with an empty or `"-"` result yielding no id. -/

/-- Sanitization exactly as the spec words it: keep decimal digits, and keep
a minus sign only as the leading character of the result. -/
def sanitizeSpec (input : String) : String :=
  input.toList.foldl
    (fun acc c =>
      if c.isDigit then acc.push c
      else if c = '-' ∧ acc = "" then acc.push c
      else acc) ""

/-- A sanitized id is usable per the spec when it is neither empty nor `"-"`. -/
def usableSpec (s : String) : Bool :=
  s ≠ "" ∧ s ≠ "-"

/-- The movie match key as claim C2 describes it, tiered over the spec's
sanitized id strings. -/
def movieMatchKeySpec (it : Item) : String :=
  let imdb := sanitizeSpec it.ProviderIDs.IMDB
  if usableSpec imdb then "imdb_" ++ imdb
  else
    let tmdb := sanitizeSpec it.ProviderIDs.TMDB
    if usableSpec tmdb then "tmdb_" ++ tmdb
    else "name_" ++ it.Name ++ "_" ++ toString it.Runtime

/-- The episode match key as claim C2 describes it. -/
def episodeMatchKeySpec (it : Item) : String :=
  let imdb := sanitizeSpec it.ProviderIDs.IMDB
  if usableSpec imdb then "imdb_" ++ imdb
  else
    let tmdb := sanitizeSpec it.ProviderIDs.TMDB
    if usableSpec tmdb then "tmdb_" ++ tmdb
    else
      let tvdb := sanitizeSpec it.ProviderIDs.TVDB
      if usableSpec tvdb then "tvdb_" ++ tvdb
      else
        "name_" ++ it.Name ++ "_" ++ it.SeriesName ++ "_" ++ it.SeasonName ++ "_"
          ++ toString it.Runtime

/-- The movie match key under the amended reading of C2: the tier is usable
exactly when `SanitizeAndParseInt64` returns a non-zero value, and the key
renders that parsed value in canonical decimal. -/
def movieMatchKeyAmended (it : Item) : String :=
  let i := SanitizeAndParseInt64 it.ProviderIDs.IMDB
  if i ≠ 0 then "imdb_" ++ toString i
  else
    let t := SanitizeAndParseInt64 it.ProviderIDs.TMDB
    if t ≠ 0 then "tmdb_" ++ toString t
    else "name_" ++ it.Name ++ "_" ++ toString it.Runtime

/-- The episode match key under the amended reading of C2. -/
def episodeMatchKeyAmended (it : Item) : String :=
  let i := SanitizeAndParseInt64 it.ProviderIDs.IMDB
  if i ≠ 0 then "imdb_" ++ toString i
  else
    let t := SanitizeAndParseInt64 it.ProviderIDs.TMDB
    if t ≠ 0 then "tmdb_" ++ toString t
    else
      let v := SanitizeAndParseInt64 it.ProviderIDs.TVDB
      if v ≠ 0 then "tvdb_" ++ toString v
      else
        "name_" ++ it.Name ++ "_" ++ it.SeriesName ++ "_" ++ it.SeasonName ++ "_"
          ++ toString it.Runtime

/-! ## Snapshot tables (migration 1: tables `movies` and `episodes`)

A table is a list of rows; the `UNIQUE (server, local_id)` constraint and
the rowid primary key appear as hypotheses where theorems need them. -/

structure MovieRow where
  server : String
  local_id : String
  name : String
  imdb_id : Option Int
  tmdb_id : Option Int
  runtime : Int
  watched_date : Int
  watched_progress : Rat
  watched_position_ticks : Int
  is_favorite : Bool
  last_seen : Int
  deriving DecidableEq

structure EpisodeRow where
  server : String
  local_id : String
  name : String
  series_name : String
  season_name : String
  imdb_id : Option Int
  tmdb_id : Option Int
  tvdb_id : Option Int
  runtime : Int
  watched_date : Int
  watched_progress : Rat
  watched_position_ticks : Int
  is_favorite : Bool
  last_seen : Int
  deriving DecidableEq

/-- `match_key` of a stored movie row (CASE of the movie query). -/
def movieMatchKey (r : MovieRow) : String :=
  matchKeyMovieCase r.imdb_id r.tmdb_id r.name r.runtime

/-- `match_key` of a stored episode row (CASE of the episode query). -/
def episodeMatchKey (r : EpisodeRow) : String :=
  matchKeyEpisodeCase r.imdb_id r.tmdb_id r.tvdb_id r.name r.series_name r.season_name r.runtime

/-! ## The diff queries (`GetMovieWithGreatestWatchedDate`,
`GetEpisodeWithGreatestWatchedDate`)

Both queries are the same pipeline over their table, differing only in the
match-key CASE and the carried columns, so the pipeline is stated once over
accessor functions `srv`, `key`, `wd` and an output builder `mk`, then
instantiated for each table.

- `diffRemoteMax` is the `max_remote_…` CTE: `MAX(watched_date)` per match
  key over rows of other servers with `watched_date > 0`.
- `diffBestRemote` is the `best_remote_…` CTE: among the rows of other
  servers whose `watched_date` equals that maximum, `FIRST_VALUE` ordered by
  `watched_date DESC` picks one row; all candidates are ties, and the
  deterministic tie-break of the query plan is modelled as first in table
  order.
- `diffEmit`/`diffQuery` are the final join of `best_remote_…` with
  `local_…` on the match key, filtered by
  `remote_watched_date > COALESCE(local_watched_date, 0) AND
  remote_watched_date > 0` (the COALESCE is vacuous: the column is
  NOT NULL).  The emitted row carries the local row's `local_id` and the
  remote row's remaining columns. -/

section DiffQuery

variable {R O : Type}

def diffRemoteMax (srv key : R → String) (wd : R → Int) (tbl : List R) (S K : String) :
    Option Int :=
  ((tbl.filter fun r => srv r ≠ S ∧ key r = K ∧ 0 < wd r).map wd).max?

def diffBestRemote (srv key : R → String) (wd : R → Int) (tbl : List R) (S K : String) :
    Option R :=
  match diffRemoteMax srv key wd tbl S K with
  | none => none
  | some m => (tbl.filter fun r => srv r ≠ S ∧ key r = K ∧ wd r = m).head?

def diffEmit (srv key : R → String) (wd : R → Int) (mk : R → R → O) (tbl : List R)
    (S : String) (l : R) : Option O :=
  match diffBestRemote srv key wd tbl S (key l) with
  | none => none
  | some b => if wd l < wd b ∧ 0 < wd b then some (mk l b) else none

def diffQuery (srv key : R → String) (wd : R → Int) (mk : R → R → O) (tbl : List R)
    (S : String) : List O :=
  (tbl.filter fun r => srv r = S).filterMap (diffEmit srv key wd mk tbl S)

/-- The rows of `diffQuery` that originate from local rows whose match key is
`K`: the view of the query result "for `(S, K)`". -/
def diffRowsForKey (srv key : R → String) (wd : R → Int) (mk : R → R → O) (tbl : List R)
    (S K : String) : List O :=
  ((tbl.filter fun r => srv r = S).filter fun r => key r = K).filterMap
    (diffEmit srv key wd mk tbl S)

end DiffQuery

/-- Output row shape of the movie diff query (sqlc result of
`GetMovieWithGreatestWatchedDate`). -/
structure MovieDiffRow where
  local_id : String
  name : String
  watched_date : Int
  watched_progress : Rat
  watched_position_ticks : Int
  is_favorite : Bool
  deriving DecidableEq

/-- Output row shape of the episode diff query. -/
structure EpisodeDiffRow where
  local_id : String
  name : String
  series_name : String
  watched_date : Int
  watched_progress : Rat
  watched_position_ticks : Int
  is_favorite : Bool
  deriving DecidableEq

/-- Final SELECT of the movie query: the local row's `local_id`, the
winning remote row's other columns. -/
def mkMovieDiffRow (l b : MovieRow) : MovieDiffRow :=
  { local_id := l.local_id
    name := b.name
    watched_date := b.watched_date
    watched_progress := b.watched_progress
    watched_position_ticks := b.watched_position_ticks
    is_favorite := b.is_favorite }

/-- Final SELECT of the episode query. -/
def mkEpisodeDiffRow (l b : EpisodeRow) : EpisodeDiffRow :=
  { local_id := l.local_id
    name := b.name
    series_name := b.series_name
    watched_date := b.watched_date
    watched_progress := b.watched_progress
    watched_position_ticks := b.watched_position_ticks
    is_favorite := b.is_favorite }

def GetMovieWithGreatestWatchedDate (tbl : List MovieRow) (server : String) :
    List MovieDiffRow :=
  diffQuery (·.server) movieMatchKey (·.watched_date) mkMovieDiffRow tbl server

def GetEpisodeWithGreatestWatchedDate (tbl : List EpisodeRow) (server : String) :
    List EpisodeDiffRow :=
  diffQuery (·.server) episodeMatchKey (·.watched_date) mkEpisodeDiffRow tbl server

/-! ## Properties of the diff pipeline -/

theorem intMax?_spec {l : List Int} {m : Int} (h : l.max? = some m) :
    m ∈ l ∧ ∀ a ∈ l, a ≤ m := by
  have : Std.Antisymm (α := Int) (· ≤ ·) := ⟨fun {a b : Int} ha hb => le_antisymm ha hb⟩
  rw [List.max?_eq_some_iff] at h
  · exact h
  · exact fun a => le_refl a
  · exact fun a b => max_choice a b
  · exact fun a b c => max_le_iff

theorem intMax?_exists {l : List Int} (h : l ≠ []) : ∃ m, l.max? = some m := by
  cases hm : l.max? with
  | none => exact absurd (List.max?_eq_none_iff.mp hm) h
  | some m => exact ⟨m, rfl⟩

theorem filter_eq_singleton_of_nodup {R : Type} {p : R → Bool} {tbl : List R} {a : R}
    (hnd : tbl.Nodup) (ha : a ∈ tbl) (hpa : p a = true)
    (huniq : ∀ b ∈ tbl, p b = true → b = a) : tbl.filter p = [a] := by
  induction tbl with
  | nil => simp at ha
  | cons x xs ih =>
    rcases List.nodup_cons.mp hnd with ⟨hxnot, hxs⟩
    rcases List.mem_cons.mp ha with hax | hax
    · subst hax
      rw [List.filter_cons_of_pos hpa]
      have : xs.filter p = [] := by
        rw [List.filter_eq_nil_iff]
        intro b hb hpb
        exact hxnot ((huniq b (List.mem_cons_of_mem _ hb) hpb) ▸ hb)
      rw [this]
    · have hpx : ¬ p x = true := by
        intro hpx
        exact hxnot ((huniq x (List.mem_cons_self _ _) hpx) ▸ hax)
      rw [List.filter_cons_of_neg (by simpa using hpx)]
      exact ih hxs hax fun b hb hpb => huniq b (List.mem_cons_of_mem _ hb) hpb

section DiffQueryLemmas

variable {R O : Type} (srv key : R → String) (wd : R → Int) (mk : R → R → O)

theorem diffRemoteMax_spec {tbl : List R} {S K : String} {m : Int}
    (h : diffRemoteMax srv key wd tbl S K = some m) :
    (∃ r ∈ tbl, srv r ≠ S ∧ key r = K ∧ wd r = m ∧ 0 < m) ∧
      ∀ r ∈ tbl, srv r ≠ S → key r = K → 0 < wd r → wd r ≤ m := by
  obtain ⟨hmem, hub⟩ := intMax?_spec h
  constructor
  · rcases List.mem_map.mp hmem with ⟨r, hr, hwr⟩
    rcases List.mem_filter.mp hr with ⟨hrt, hprops⟩
    simp only [decide_eq_true_eq] at hprops
    exact ⟨r, hrt, hprops.1, hprops.2.1, hwr, hwr ▸ hprops.2.2⟩
  · intro r hrt hs hk hw
    exact hub (wd r) (List.mem_map_of_mem wd (List.mem_filter.mpr
      ⟨hrt, by simp only [decide_eq_true_eq]; exact ⟨hs, hk, hw⟩⟩))

theorem diffRemoteMax_exists {tbl : List R} {S K : String} {r : R}
    (hrt : r ∈ tbl) (hs : srv r ≠ S) (hk : key r = K) (hw : 0 < wd r) :
    ∃ m, diffRemoteMax srv key wd tbl S K = some m := by
  apply intMax?_exists
  intro hnil
  have : wd r ∈ ((tbl.filter fun r => srv r ≠ S ∧ key r = K ∧ 0 < wd r).map wd) :=
    List.mem_map_of_mem wd (List.mem_filter.mpr
      ⟨hrt, by simp only [decide_eq_true_eq]; exact ⟨hs, hk, hw⟩⟩)
  rw [hnil] at this
  exact absurd this (List.not_mem_nil _)

theorem diffBestRemote_spec {tbl : List R} {S K : String} {b : R}
    (h : diffBestRemote srv key wd tbl S K = some b) :
    b ∈ tbl ∧ srv b ≠ S ∧ key b = K ∧
      diffRemoteMax srv key wd tbl S K = some (wd b) := by
  unfold diffBestRemote at h
  cases hm : diffRemoteMax srv key wd tbl S K with
  | none => rw [hm] at h; exact absurd h (by simp)
  | some m =>
    rw [hm] at h
    have h' : (tbl.filter fun r => srv r ≠ S ∧ key r = K ∧ wd r = m).head? = some b := h
    have hbmem := List.mem_of_mem_head? h'
    rcases List.mem_filter.mp hbmem with ⟨hbt, hprops⟩
    simp only [decide_eq_true_eq] at hprops
    exact ⟨hbt, hprops.1, hprops.2.1, by rw [hprops.2.2]⟩


theorem diffBestRemote_exists {tbl : List R} {S K : String} {r : R}
    (hrt : r ∈ tbl) (hs : srv r ≠ S) (hk : key r = K) (hw : 0 < wd r) :
    ∃ b, diffBestRemote srv key wd tbl S K = some b := by
  obtain ⟨m, hm⟩ := diffRemoteMax_exists srv key wd hrt hs hk hw
  obtain ⟨⟨r0, hr0t, hr0s, hr0k, hr0w, _⟩, _⟩ := diffRemoteMax_spec srv key wd hm
  have hr0f : r0 ∈ tbl.filter fun r => srv r ≠ S ∧ key r = K ∧ wd r = m :=
    List.mem_filter.mpr ⟨hr0t, by simp only [decide_eq_true_eq]; exact ⟨hr0s, hr0k, hr0w⟩⟩
  cases hfl : (tbl.filter fun r => srv r ≠ S ∧ key r = K ∧ wd r = m) with
  | nil => rw [hfl] at hr0f; exact absurd hr0f (List.not_mem_nil _)
  | cons x xs =>
    refine ⟨x, ?_⟩
    unfold diffBestRemote
    rw [hm]
    show (tbl.filter fun r => srv r ≠ S ∧ key r = K ∧ wd r = m).head? = some x
    rw [hfl]
    rfl

/-- Soundness and completeness of the keyed diff view: a row is returned for
`(S, K)` exactly when `S` has a row for `K` and some other server has a row
for `K` with a strictly greater, strictly positive `watched_date`. -/
theorem diffRowsForKey_ne_nil_iff {tbl : List R} {S K : String} :
    diffRowsForKey srv key wd mk tbl S K ≠ [] ↔
      ∃ l ∈ tbl, srv l = S ∧ key l = K ∧
        ∃ r ∈ tbl, srv r ≠ S ∧ key r = K ∧ wd l < wd r ∧ 0 < wd r := by
  constructor
  · intro hne
    obtain ⟨o, ho⟩ := List.exists_mem_of_ne_nil _ hne
    rcases List.mem_filterMap.mp ho with ⟨l, hl, hemit⟩
    rcases List.mem_filter.mp hl with ⟨hl1, hlk⟩
    rcases List.mem_filter.mp hl1 with ⟨hlt, hls⟩
    simp only [decide_eq_true_eq] at hlk hls
    unfold diffEmit at hemit
    cases hb : diffBestRemote srv key wd tbl S (key l) with
    | none => rw [hb] at hemit; exact absurd hemit (by simp)
    | some b =>
      rw [hb] at hemit
      have hemit' : (if wd l < wd b ∧ 0 < wd b then some (mk l b) else none) = some o := hemit
      have hcond : wd l < wd b ∧ 0 < wd b := by
        by_contra hc
        rw [if_neg hc] at hemit'
        exact absurd hemit' (by simp)
      obtain ⟨hbt, hbs, hbk, _⟩ := diffBestRemote_spec srv key wd hb
      exact ⟨l, hlt, hls, hlk, b, hbt, hbs, hlk ▸ hbk, hcond.1, hcond.2⟩
  · rintro ⟨l, hlt, hls, hlk, r, hrt, hrs, hrk, hlr, hrpos⟩
    obtain ⟨b, hb⟩ := diffBestRemote_exists srv key wd hrt hrs (hlk ▸ hrk) hrpos
    obtain ⟨hbt, hbs, hbk, hbmax⟩ := diffBestRemote_spec srv key wd hb
    obtain ⟨_, hub⟩ := diffRemoteMax_spec srv key wd hbmax
    have hrb : wd r ≤ wd b := hub r hrt hrs (hlk ▸ hrk) hrpos
    have hemit : diffEmit srv key wd mk tbl S l = some (mk l b) := by
      unfold diffEmit
      rw [hb]
      show (if wd l < wd b ∧ 0 < wd b then some (mk l b) else none) = some (mk l b)
      exact if_pos ⟨lt_of_lt_of_le hlr hrb, lt_of_lt_of_le hrpos hrb⟩
    intro hnil
    have : mk l b ∈ diffRowsForKey srv key wd mk tbl S K :=
      List.mem_filterMap.mpr ⟨l, List.mem_filter.mpr
        ⟨List.mem_filter.mpr ⟨hlt, by simp only [decide_eq_true_eq]; exact hls⟩,
          by simp only [decide_eq_true_eq]; exact hlk⟩, hemit⟩
    rw [hnil] at this
    exact absurd this (List.not_mem_nil _)

/-- Uniqueness and content of the keyed diff view: when `S`'s row for `K` is
unique and some other server is strictly ahead, the query returns exactly one
row for `(S, K)`, built from `S`'s row (its `local_id`) and a deterministically
chosen remote row attaining the maximum remote `watched_date`. -/
theorem diffRowsForKey_eq_singleton {tbl : List R} {S K : String} {l : R}
    (hnd : tbl.Nodup) (hlt : l ∈ tbl) (hls : srv l = S) (hlk : key l = K)
    (huniq : ∀ b ∈ tbl, srv b = S → key b = K → b = l)
    (hex : ∃ r ∈ tbl, srv r ≠ S ∧ key r = K ∧ wd l < wd r ∧ 0 < wd r) :
    ∃ b ∈ tbl, srv b ≠ S ∧ key b = K ∧
      diffRemoteMax srv key wd tbl S K = some (wd b) ∧
      diffRowsForKey srv key wd mk tbl S K = [mk l b] := by
  obtain ⟨r, hrt, hrs, hrk, hlr, hrpos⟩ := hex
  obtain ⟨b, hb⟩ := diffBestRemote_exists srv key wd hrt hrs hrk hrpos
  obtain ⟨hbt, hbs, hbk, hbmax⟩ := diffBestRemote_spec srv key wd hb
  obtain ⟨_, hub⟩ := diffRemoteMax_spec srv key wd hbmax
  have hrb : wd r ≤ wd b := hub r hrt hrs hrk hrpos
  have hemit : diffEmit srv key wd mk tbl S l = some (mk l b) := by
    unfold diffEmit
    rw [hlk, hb]
    show (if wd l < wd b ∧ 0 < wd b then some (mk l b) else none) = some (mk l b)
    exact if_pos ⟨lt_of_lt_of_le hlr hrb, lt_of_lt_of_le hrpos hrb⟩
  refine ⟨b, hbt, hbs, hbk, hbmax, ?_⟩
  unfold diffRowsForKey
  rw [List.filter_filter]
  have hfilter :
      (tbl.filter fun r => decide (key r = K) && decide (srv r = S)) = [l] := by
    apply filter_eq_singleton_of_nodup hnd hlt
    · simp only [Bool.and_eq_true, decide_eq_true_eq]; exact ⟨hlk, hls⟩
    · intro c hc hpc
      simp only [Bool.and_eq_true, decide_eq_true_eq] at hpc
      exact huniq c hc hpc.2 hpc.1
  rw [hfilter]
  simp [hemit]

/-- Every row of the keyed view is a row of the full query result. -/
theorem diffRowsForKey_subset_diffQuery {tbl : List R} {S K : String} {o : O}
    (h : o ∈ diffRowsForKey srv key wd mk tbl S K) :
    o ∈ diffQuery srv key wd mk tbl S := by
  unfold diffRowsForKey at h
  unfold diffQuery
  exact ((List.filter_sublist _).filterMap _).mem h

end DiffQueryLemmas

/-! ## Ingest (`InsertMovie`/`InsertEpisode` + `InsertMovies`/`InsertEpisodes`)

`InsertMovie` and `InsertEpisode` are `INSERT … ON CONFLICT(server,
local_id) DO UPDATE` statements over the same transaction discipline, so the
statement is stated once over the key extractors and the DO UPDATE column
assignment, then instantiated per table.

The inserted column list of both statements omits `last_seen`; the schema
declares `last_seen INTEGER NOT NULL` with no default, so the fresh-insert
arm violates the NOT NULL constraint and the statement fails.  The conflict
arm updates only the listed columns and leaves `last_seen` (and the key
columns) untouched. -/

section Upsert

variable {ρ π : Type}

/-- The row produced by one statement for one existing row: apply the
DO UPDATE assignment when the row's `(server, local_id)` matches. -/
def upsertStep (rowKey : ρ → String × String) (pKey : π → String × String)
    (setF : ρ → π → ρ) (p : π) (r : ρ) : ρ :=
  if rowKey r = pKey p then setF r p else r

/-- One upsert statement: on conflict, update the matching row's listed
columns; otherwise the fresh insert fails the `last_seen` NOT NULL
constraint. -/
def upsertTx (rowKey : ρ → String × String) (pKey : π → String × String)
    (setF : ρ → π → ρ) (tbl : List ρ) (p : π) : Except String (List ρ) :=
  if tbl.any fun r => rowKey r = pKey p then
    .ok (tbl.map (upsertStep rowKey pKey setF p))
  else .error "NOT NULL constraint failed: last_seen"

/-- Statements of one batch transaction, run sequentially; the first error
aborts the transaction. -/
def upsertBatchGo (rowKey : ρ → String × String) (pKey : π → String × String)
    (setF : ρ → π → ρ) : List ρ → List π → Except String (List ρ)
  | tbl, [] => .ok tbl
  | tbl, p :: ps =>
    match upsertTx rowKey pKey setF tbl p with
    | .error e => .error e
    | .ok t => upsertBatchGo rowKey pKey setF t ps

/-- The whole batched call: on any statement error the deferred rollback
restores the initial table and the error is reported. -/
def upsertBatch (rowKey : ρ → String × String) (pKey : π → String × String)
    (setF : ρ → π → ρ) (tbl : List ρ) (ps : List π) : List ρ × Bool :=
  match upsertBatchGo rowKey pKey setF tbl ps with
  | .ok t => (t, false)
  | .error _ => (tbl, true)

end Upsert

def movieRowKey (r : MovieRow) : String × String := (r.server, r.local_id)

def movieParamKey (p : InsertMovieParams) : String × String := (p.Server, p.LocalID)

/-- `DO UPDATE SET` column list of `InsertMovie`: every inserted column except
the conflict keys; `last_seen` is not assigned. -/
def movieSetFields (r : MovieRow) (p : InsertMovieParams) : MovieRow :=
  { r with
    name := p.Name
    imdb_id := p.ImdbID
    tmdb_id := p.TmdbID
    runtime := p.Runtime
    watched_date := p.WatchedDate
    watched_progress := p.WatchedProgress
    watched_position_ticks := p.WatchedPositionTicks
    is_favorite := p.IsFavorite }

def episodeRowKey (r : EpisodeRow) : String × String := (r.server, r.local_id)

def episodeParamKey (p : InsertEpisodeParams) : String × String := (p.Server, p.LocalID)

/-- `DO UPDATE SET` column list of `InsertEpisode`. -/
def episodeSetFields (r : EpisodeRow) (p : InsertEpisodeParams) : EpisodeRow :=
  { r with
    name := p.Name
    series_name := p.SeriesName
    season_name := p.SeasonName
    imdb_id := p.ImdbID
    tmdb_id := p.TmdbID
    tvdb_id := p.TvdbID
    runtime := p.Runtime
    watched_date := p.WatchedDate
    watched_progress := p.WatchedProgress
    watched_position_ticks := p.WatchedPositionTicks
    is_favorite := p.IsFavorite }

/-- `InsertMovies` (sqlite.go): per item, convert with
`MovieToInsertMovieParam` and run `InsertMovie` inside one transaction. -/
def InsertMovies (server : String) (movies : List Item) (tbl : List MovieRow) :
    List MovieRow × Bool :=
  upsertBatch movieRowKey movieParamKey movieSetFields tbl
    (movies.map (MovieToInsertMovieParam server))

/-- `InsertEpisodes` (sqlite.go). -/
def InsertEpisodes (server : String) (episodes : List Item) (tbl : List EpisodeRow) :
    List EpisodeRow × Bool :=
  upsertBatch episodeRowKey episodeParamKey episodeSetFields tbl
    (episodes.map (EpisodeToInsertEpisodeParam server))

/-! ## Properties of the upsert -/

section UpsertLemmas

variable {ρ π : Type} (rowKey : ρ → String × String) (pKey : π → String × String)
  (setF : ρ → π → ρ)

theorem upsertStep_key (hkey : ∀ r p, rowKey (setF r p) = rowKey r) (p : π) (r : ρ) :
    rowKey (upsertStep rowKey pKey setF p r) = rowKey r := by
  unfold upsertStep
  split
  · exact hkey r p
  · rfl

theorem upsert_map_keys (hkey : ∀ r p, rowKey (setF r p) = rowKey r)
    {tbl : List ρ} {p : π} :
    (tbl.map (upsertStep rowKey pKey setF p)).map rowKey = tbl.map rowKey := by
  rw [List.map_map]
  apply List.map_congr_left
  intro r _
  exact upsertStep_key rowKey pKey setF hkey p r

/-- The last statement of the batch that targets key `k`, scanning from the
head: the tail's last match wins. -/
def lastMatch (pKey : π → String × String) (k : String × String) :
    List π → Option π
  | [] => none
  | p :: ps =>
    match lastMatch pKey k ps with
    | some q => some q
    | none => if pKey p = k then some p else none

theorem lastMatch_cons (k : String × String) (p : π) (ps : List π) :
    lastMatch pKey k (p :: ps) =
      match lastMatch pKey k ps with
      | some q => some q
      | none => if pKey p = k then some p else none := rfl

theorem foldl_upsertStep_char (hkey : ∀ r p, rowKey (setF r p) = rowKey r)
    (hset2 : ∀ r p q, setF (setF r p) q = setF r q) (ps : List π) (r : ρ) :
    ps.foldl (fun r p => upsertStep rowKey pKey setF p r) r =
      match lastMatch pKey (rowKey r) ps with
      | none => r
      | some p => setF r p := by
  induction ps generalizing r with
  | nil => rfl
  | cons p ps ih =>
    rw [List.foldl_cons]
    by_cases h : rowKey r = pKey p
    · have hstep : upsertStep rowKey pKey setF p r = setF r p := if_pos h
      rw [hstep, ih (setF r p), hkey r p, lastMatch_cons]
      cases hlm : lastMatch pKey (rowKey r) ps with
      | some q => simpa using hset2 r p q
      | none => rw [if_pos h.symm]
    · have hstep : upsertStep rowKey pKey setF p r = r := if_neg h
      rw [hstep, ih r, lastMatch_cons]
      cases hlm : lastMatch pKey (rowKey r) ps with
      | some q => rfl
      | none => rw [if_neg fun hc => h hc.symm]

theorem foldl_upsertStep_key (hkey : ∀ r p, rowKey (setF r p) = rowKey r)
    (hset2 : ∀ r p q, setF (setF r p) q = setF r q) (ps : List π) (r : ρ) :
    rowKey (ps.foldl (fun r p => upsertStep rowKey pKey setF p r) r) = rowKey r := by
  rw [foldl_upsertStep_char rowKey pKey setF hkey hset2]
  cases lastMatch pKey (rowKey r) ps with
  | none => rfl
  | some p => exact hkey r p

theorem foldl_upsertStep_idem (hkey : ∀ r p, rowKey (setF r p) = rowKey r)
    (hset2 : ∀ r p q, setF (setF r p) q = setF r q) (ps : List π) (r : ρ) :
    ps.foldl (fun r p => upsertStep rowKey pKey setF p r)
        (ps.foldl (fun r p => upsertStep rowKey pKey setF p r) r) =
      ps.foldl (fun r p => upsertStep rowKey pKey setF p r) r := by
  rw [foldl_upsertStep_char rowKey pKey setF hkey hset2 ps
    (ps.foldl (fun r p => upsertStep rowKey pKey setF p r) r)]
  rw [foldl_upsertStep_key rowKey pKey setF hkey hset2]
  rw [foldl_upsertStep_char rowKey pKey setF hkey hset2 ps r]
  cases lastMatch pKey (rowKey r) ps with
  | none => rfl
  | some p => exact hset2 r p p

theorem upsertBatchGo_map (hkey : ∀ r p, rowKey (setF r p) = rowKey r)
    {tbl : List ρ} {ps : List π}
    (hmem : ∀ p ∈ ps, pKey p ∈ tbl.map rowKey) :
    upsertBatchGo rowKey pKey setF tbl ps =
      .ok (tbl.map fun r => ps.foldl (fun r p => upsertStep rowKey pKey setF p r) r) := by
  induction ps generalizing tbl with
  | nil => simp [upsertBatchGo]
  | cons p ps ih =>
    have hp := hmem p (List.mem_cons_self _ _)
    rcases List.mem_map.mp hp with ⟨r, hrt, hrk⟩
    have hany : (tbl.any fun r => rowKey r = pKey p) = true :=
      List.any_eq_true.mpr ⟨r, hrt, by simp only [decide_eq_true_eq]; exact hrk⟩
    unfold upsertBatchGo upsertTx
    rw [if_pos hany]
    show upsertBatchGo rowKey pKey setF (tbl.map (upsertStep rowKey pKey setF p)) ps = _
    rw [ih ?hm]
    case hm =>
      intro q hq
      rw [upsert_map_keys rowKey pKey setF hkey]
      exact hmem q (List.mem_cons_of_mem _ hq)
    rw [List.map_map]
    rfl

theorem upsertBatchGo_ok_inv (hkey : ∀ r p, rowKey (setF r p) = rowKey r)
    {tbl : List ρ} {ps : List π} {t : List ρ}
    (h : upsertBatchGo rowKey pKey setF tbl ps = .ok t) :
    ∀ p ∈ ps, pKey p ∈ tbl.map rowKey := by
  induction ps generalizing tbl with
  | nil => intro p hp; exact absurd hp (List.not_mem_nil _)
  | cons p ps ih =>
    unfold upsertBatchGo upsertTx at h
    by_cases hany : (tbl.any fun r => rowKey r = pKey p) = true
    · rw [if_pos hany] at h
      have h' : upsertBatchGo rowKey pKey setF
          (tbl.map (upsertStep rowKey pKey setF p)) ps = .ok t := h
      intro q hq
      rcases List.mem_cons.mp hq with hqp | hqs
      · subst hqp
        rcases List.any_eq_true.mp hany with ⟨r, hrt, hrk⟩
        simp only [decide_eq_true_eq] at hrk
        exact List.mem_map.mpr ⟨r, hrt, hrk⟩
      · have := ih h' q hqs
        rwa [upsert_map_keys rowKey pKey setF hkey] at this
    · rw [if_neg hany] at h
      exact absurd h (by simp)

/-- Idempotence of the batched upsert: repeating the same batch leaves the
table exactly as after the first run, and the `(server, local_id)` keys stay
duplicate-free. -/
theorem upsertBatch_idem (hkey : ∀ r p, rowKey (setF r p) = rowKey r)
    (hset2 : ∀ r p q, setF (setF r p) q = setF r q) {tbl : List ρ} {ps : List π}
    (hnd : (tbl.map rowKey).Nodup) :
    (upsertBatch rowKey pKey setF (upsertBatch rowKey pKey setF tbl ps).1 ps).1 =
        (upsertBatch rowKey pKey setF tbl ps).1 ∧
      ((upsertBatch rowKey pKey setF tbl ps).1.map rowKey).Nodup := by
  cases hgo : upsertBatchGo rowKey pKey setF tbl ps with
  | error e =>
    have h1 : upsertBatch rowKey pKey setF tbl ps = (tbl, true) := by
      unfold upsertBatch
      rw [hgo]
    rw [h1]
    rw [h1]
    exact ⟨rfl, hnd⟩
  | ok t =>
    have hmem := upsertBatchGo_ok_inv rowKey pKey setF hkey hgo
    have hmap := upsertBatchGo_map rowKey pKey setF hkey hmem
    rw [hgo] at hmap
    have ht : t = tbl.map fun r =>
        ps.foldl (fun r p => upsertStep rowKey pKey setF p r) r := by
      exact Option.some.inj (congrArg (fun x => x.toOption) hmap)
    have h1 : upsertBatch rowKey pKey setF tbl ps = (t, false) := by
      unfold upsertBatch
      rw [hgo]
    have hkeys : t.map rowKey = tbl.map rowKey := by
      rw [ht, List.map_map]
      apply List.map_congr_left
      intro r _
      exact foldl_upsertStep_key rowKey pKey setF hkey hset2 ps r
    have hmem2 : ∀ p ∈ ps, pKey p ∈ t.map rowKey := by
      intro p hp
      rw [hkeys]
      exact hmem p hp
    have hmap2 := upsertBatchGo_map rowKey pKey setF hkey hmem2
    have h2 : upsertBatch rowKey pKey setF t ps =
        (t.map fun r => ps.foldl (fun r p => upsertStep rowKey pKey setF p r) r,
          false) := by
      unfold upsertBatch
      rw [hmap2]
    have hfix : (t.map fun r =>
        ps.foldl (fun r p => upsertStep rowKey pKey setF p r) r) = t := by
      rw [ht, List.map_map]
      apply List.map_congr_left
      intro r _
      exact foldl_upsertStep_idem rowKey pKey setF hkey hset2 ps r
    rw [h1, h2, hfix]
    exact ⟨rfl, hkeys ▸ hnd⟩

end UpsertLemmas

/-! ## Pruning -/

/-- Modelled from the spec: the SQL behind `RemoveMoviesNotSeenSince` is not
in the available source tree (only its Go caller is); the spec defines
pruning as `delete from <table> where server = ? and last_seen < since_unix`.
The zero-check is the Go wrapper `RemoveItemsNotSeenSince` (sqlite.go), which
refuses a zero `notSeenSince`; a zero `time.Time` is `none` here. -/
def RemoveItemsNotSeenSince (server : String) (notSeenSince : Option Int)
    (tbl : List MovieRow) : Except String (List MovieRow) :=
  match notSeenSince with
  | none => .error "notSeenSince must not be zero"
  | some since => .ok (tbl.filter fun r => ¬ (r.server = server ∧ r.last_seen < since))

/-- Tail of `fetchUpdateFromJellyfin` (movies): upsert the fetched batch,
then prune rows of this server not seen since the fetch began
(`start = cycle_start`); an upsert error returns before pruning. -/
def fetchAndPruneMovies (server : String) (items : List Item) (cycleStart : Int)
    (tbl : List MovieRow) : List MovieRow × Bool :=
  let res := InsertMovies server items tbl
  if res.2 then (res.1, true)
  else
    match RemoveItemsNotSeenSince server (some cycleStart) res.1 with
    | .ok t2 => (t2, false)
    | .error _ => (res.1, true)

/-! ## Sync engine: Phase B (`synchronizeSingleUpdatedUserData`, app.go)

The diff result, the remote write outcomes and the clock are inputs; the
watermark slot for this `(server, item type)` pair and the changelog are the
state.  Database writes that the code only logs on failure are modelled as
succeeding state updates. -/

structure ItemWithUpdatedUserData where
  LocalID : String
  Name : String
  SeriesName : String
  WatchedDate : Int
  WatchedProgress : Rat
  WatchedPositionTicks : Int
  IsFavorite : Bool
  deriving DecidableEq

structure ChangelogData where
  LocalID : String
  NewWatchedDate : Int
  NewWatchedProgress : Rat
  NewWatchedPositionTicks : Int
  NewIsFavorite : Bool
  deriving DecidableEq

def getChangelogData (item : ItemWithUpdatedUserData) : ChangelogData :=
  { LocalID := item.LocalID
    NewWatchedDate := item.WatchedDate
    NewWatchedProgress := item.WatchedProgress
    NewWatchedPositionTicks := item.WatchedPositionTicks
    NewIsFavorite := item.IsFavorite }

/-- Watermark slot and changelog for one `(server, item type)` pair; the
watermark is `none` before the first `UpsertState`. -/
structure SyncState where
  lastSync : Option Int
  changelog : List ChangelogData
  deriving DecidableEq

/-- Go's `math.MaxInt64`, the initial value of `lowestTimestamp`. -/
def maxInt64 : Int := 9223372036854775807

/-- One loop iteration over an item: update the running minimum, attempt the
remote write, and either append a changelog row (success) or mark failure. -/
def syncWriteStep (writeOk : ItemWithUpdatedUserData → Bool)
    (acc : Int × Bool × List ChangelogData) (item : ItemWithUpdatedUserData) :
    Int × Bool × List ChangelogData :=
  let lowest := if item.WatchedDate < acc.1 then item.WatchedDate else acc.1
  if writeOk item then (lowest, acc.2.1, acc.2.2 ++ [getChangelogData item])
  else (lowest, true, acc.2.2)

/-- `synchronizeSingleUpdatedUserData` (app.go) for one server and item type:
empty diff advances the watermark to `now`; otherwise the writes run
sequentially and, when none failed, the watermark becomes the batch minimum
`watched_date` minus one; on any failure the watermark is untouched and the
aggregated error is non-nil (`true`). -/
def synchronizeSingleUpdatedUserData (updated : List ItemWithUpdatedUserData)
    (writeOk : ItemWithUpdatedUserData → Bool) (userIdOk : Bool) (now : Int)
    (st : SyncState) : SyncState × Bool :=
  if updated = [] then ({ st with lastSync := some now }, false)
  else if ¬userIdOk then (st, true)
  else
    let res := updated.foldl (syncWriteStep writeOk) (maxInt64, false, st.changelog)
    if ¬res.2.1 then ({ lastSync := some (res.1 - 1), changelog := res.2.2 }, false)
    else ({ st with changelog := res.2.2 }, true)

/-- One apply-phase invocation's inputs for a fixed `(server, item type)`. -/
structure CycleInput where
  updated : List ItemWithUpdatedUserData
  writeOk : ItemWithUpdatedUserData → Bool
  userIdOk : Bool
  now : Int

/-- A sequence of apply phases over successive cycles. -/
def runCycles (cycles : List CycleInput) (st : SyncState) : SyncState :=
  cycles.foldl
    (fun st c => (synchronizeSingleUpdatedUserData c.updated c.writeOk c.userIdOk c.now st).1)
    st

/-! ## Scheduler: event processing with cooldown (`App.Sync`, app.go)

The select loop consumes events sequentially.  "Within one cooldown window"
means the timer that clears the flag has not fired, so no clear is
interleaved: processing is a fold over the events with the atomic flag as
state.  A successful compare-and-swap responds `nil` (`none`) and runs
`SyncOnce`; a failed one responds the `too many requests` error and drops
the event. -/

structure EventSyncRequest where
  Source : String
  Metadata : String
  deriving DecidableEq

def processSyncEvents (cooldown : Bool) (events : List EventSyncRequest) :
    Bool × List (Option String) × Nat :=
  events.foldl
    (fun acc _ =>
      if acc.1 = false then (true, acc.2.1 ++ [none], acc.2.2 + 1)
      else (acc.1, acc.2.1 ++ [some "too many requests"], acc.2.2))
    (cooldown, [], 0)

/-! ## Cycle structure (`SyncOnce` and phases, app.go)

For claim C7 only the control flow matters: which fetches and apply phases
run, and how errors propagate.  Fetch and apply outcomes are inputs; the
trace records every attempted per-server fetch and apply. -/

inductive ItemType where
  | Movie
  | Episode
  deriving DecidableEq

structure SyncTrace where
  fetched : List (ItemType × String)
  applied : List (ItemType × String)
  deriving DecidableEq

/-- `fetchUpdatesFromJellyfin`: fan out over every server (all are attempted;
the wait group joins them all) and aggregate the per-server errors. -/
def fetchUpdatesFromJellyfin (t : ItemType) (servers : List String)
    (fetchOk : ItemType → String → Bool) (tr : SyncTrace) : SyncTrace × Bool :=
  ({ tr with fetched := tr.fetched ++ servers.map fun s => (t, s) },
    servers.any fun s => ¬ fetchOk t s)

/-- `synchronizeUpdatedUserData`: fan out the apply phase over every server
and aggregate the per-server errors. -/
def synchronizeUpdatedUserData (t : ItemType) (servers : List String)
    (applyOk : ItemType → String → Bool) (tr : SyncTrace) : SyncTrace × Bool :=
  ({ tr with applied := tr.applied ++ servers.map fun s => (t, s) },
    servers.any fun s => ¬ applyOk t s)

/-- `syncMoviesWatchedState`/`syncEpisodesWatchedState`: fetch, and return
the fetch error before the apply phase when it is non-nil. -/
def syncTypeWatchedState (t : ItemType) (servers : List String)
    (fetchOk applyOk : ItemType → String → Bool) (tr : SyncTrace) : SyncTrace × Bool :=
  let f := fetchUpdatesFromJellyfin t servers fetchOk tr
  if f.2 then (f.1, true)
  else synchronizeUpdatedUserData t servers applyOk f.1

/-- `SyncOnce`: movies then episodes, each type's error appended to the
cycle's aggregated error without stopping the cycle. -/
def SyncOnce (servers : List String) (fetchOk applyOk : ItemType → String → Bool) :
    SyncTrace × Bool :=
  let m := syncTypeWatchedState ItemType.Movie servers fetchOk applyOk ⟨[], []⟩
  let e := syncTypeWatchedState ItemType.Episode servers fetchOk applyOk m.1
  (e.1, m.2 || e.2)

/-! ## Query options and the fetch phase for one server
(`getQueryOpts` / `fetchUpdateFromJellyfin`, app.go) -/

structure ItemQueryOpts where
  Limit : Nat
  Since : Option Int
  StartIndex : Nat
  SortBy : String
  SortOrder : String
  ItemsType : ItemType
  deriving DecidableEq

/-- `getQueryOpts`: a zero `lastCheck` (Go's zero `time.Time`, `none` here)
or a counter hitting the full-sync schedule requests the full listing
(limit 500, no since); otherwise a delta (limit 25, since = lastCheck,
sorted by DatePlayed descending).  The counter and intervals are
non-negative, so Go's `%`/`/` agree with `Nat` arithmetic. -/
def getQueryOpts (lastCheck : Option Int) (cnt fullMins deltaMins : Nat)
    (t : ItemType) : ItemQueryOpts :=
  if lastCheck.isNone ∨ cnt % (fullMins / deltaMins) = 0 then
    { Limit := 500, Since := none, StartIndex := 0, SortBy := "", SortOrder := "", ItemsType := t }
  else
    { Limit := 25, Since := some (lastCheck.getD 0), StartIndex := 0,
      SortBy := "DatePlayed", SortOrder := "Descending", ItemsType := t }

/-- `state` table row (migration 1). -/
structure StateRow where
  server : String
  type : String
  last_sync : Int
  deriving DecidableEq

/-- `GetLastCheck` (queries, `:one`): a missing `(server, type)` row is
`sql.ErrNoRows`, an error. -/
def GetLastCheck (stateTbl : List StateRow) (server ttype : String) :
    Except String Int :=
  match stateTbl.find? (fun r => r.server = server ∧ r.type = ttype) with
  | none => .error "sql: no rows in result set"
  | some r => .ok r.last_sync

structure FetchOutcome where
  queried : Option ItemQueryOpts
  failed : Bool
  deriving DecidableEq

/-- Control flow of `fetchUpdateFromJellyfin` (app.go) for one server: a
`GetState` error is logged and the zero time is used as `lastCheck`; only
user-id resolution, the listing call, the upsert and the prune can fail the
fetch.  `queried` records the options of the listing request when one was
issued. -/
def fetchUpdateFromJellyfin (userIdOk : Bool) (stateRes : Except String Int)
    (cnt fullMins deltaMins : Nat) (t : ItemType)
    (getItemsOk insertOk pruneOk : Bool) : FetchOutcome :=
  if ¬userIdOk then { queried := none, failed := true }
  else
    let lastCheck : Option Int :=
      match stateRes with
      | .error _ => none
      | .ok v => some v
    let opts := getQueryOpts lastCheck cnt fullMins deltaMins t
    if ¬getItemsOk then { queried := some opts, failed := true }
    else if ¬insertOk then { queried := some opts, failed := true }
    else { queried := some opts, failed := ¬pruneOk }

/-! ## Paginated listing (`Client.GetItems`, internal/jellyfin/client.go)

The remote server is a function from `StartIndex` to a page (`Items`,
`TotalRecordCount`).  Go `time.Time` comparisons `Before`/`After` are strict
orderings of instants; the zero time precedes every representable instant,
with Unix seconds -62135596800. -/

/-- Unix seconds of a possibly-zero time (`none` = Go's zero `time.Time`,
whose `Unix()` is -62135596800). -/
def timeVal : Option Int → Int
  | none => -62135596800
  | some t => t

/-- `a.Before(s)` for an item timestamp against the `since` instant. -/
def timeBefore (a : Option Int) (s : Int) : Bool := timeVal a < s

/-- `a.After(s)`. -/
def timeAfter (a : Option Int) (s : Int) : Bool := s < timeVal a

structure ItemsResponse where
  Items : List Item
  TotalRecordCount : Int
  StartIndex : Int
  deriving DecidableEq

/-- The page-walking loop of `Client.GetItems`, with explicit fuel standing
for the unbounded `for !reachedEnd` loop (`none` = fuel exhausted before
`reachedEnd`).  Each iteration requests the page at `startIndex`, keeps
either the whole page or — when `since` is set and the page's last item
plays strictly before `since` — only the items playing strictly after
`since` (setting `exceededTimeFilter`), then stops when the page is short,
`startIndex` plus the returned count reaches the reported total, or the
time filter was exceeded; otherwise it advances `startIndex` by `limit`. -/
def getItemsLoop (fetchPage : Nat → ItemsResponse) (limit : Nat) (since : Option Int) :
    Nat → Nat → List Item → Option (List Item)
  | 0, _, _ => none
  | fuel + 1, startIndex, acc =>
    let response := fetchPage startIndex
    let kept :=
      match since with
      | some s =>
        match response.Items.getLast? with
        | some lastEpisode =>
          if timeBefore lastEpisode.UserData.LastPlayedDate s then
            (response.Items.filter fun (item : Item) => timeAfter item.UserData.LastPlayedDate s,
              true)
          else (response.Items, false)
        | none => (response.Items, false)
      | none => (response.Items, false)
    let acc := acc ++ kept.1
    if response.Items.length < limit ∨
        (startIndex + response.Items.length : Int) ≥ response.TotalRecordCount ∨
        kept.2 = true then
      some acc
    else getItemsLoop fetchPage limit since fuel (startIndex + limit) acc

/-- `Client.GetItems`: validate the options, run the loop from
`opts.StartIndex`, and package the collected items as a response. -/
def GetItems (fetchPage : Nat → ItemsResponse) (opts : ItemQueryOpts) (fuel : Nat) :
    Except String (Option ItemsResponse) :=
  if 25 ≤ opts.Limit ∧ opts.Limit ≤ 1000 then
    .ok ((getItemsLoop fetchPage opts.Limit opts.Since fuel opts.StartIndex []).map
      fun allMovies => ⟨allMovies, (allMovies.length : Int), 0⟩)
  else .error "validation of query opts failed"

/-- The listing algorithm as claim C9 words it: without `since`, collect
whole pages and stop exactly on a short page or when `start_index` plus the
returned count reaches the reported total; with `since`, check each page's
last item — if it plays strictly before `since`, keep only the items playing
strictly after `since` and stop, otherwise keep the whole page and continue
walking pages (under the same page-walk stopping rule). -/
def getItemsSpecLoop (fetchPage : Nat → ItemsResponse) (limit : Nat)
    (since : Option Int) : Nat → Nat → List Item → Option (List Item)
  | 0, _, _ => none
  | fuel + 1, startIndex, acc =>
    let page := fetchPage startIndex
    let pageDone : Prop :=
      page.Items.length < limit ∨
        (startIndex + page.Items.length : Int) ≥ page.TotalRecordCount
    match since with
    | none =>
      if pageDone then some (acc ++ page.Items)
      else getItemsSpecLoop fetchPage limit since fuel (startIndex + limit)
        (acc ++ page.Items)
    | some s =>
      match page.Items.getLast? with
      | some lastItem =>
        if timeBefore lastItem.UserData.LastPlayedDate s then
          some (acc ++ page.Items.filter fun (it : Item) => timeAfter it.UserData.LastPlayedDate s)
        else if pageDone then some (acc ++ page.Items)
        else getItemsSpecLoop fetchPage limit since fuel (startIndex + limit)
          (acc ++ page.Items)
      | none =>
        if pageDone then some (acc ++ page.Items)
        else getItemsSpecLoop fetchPage limit since fuel (startIndex + limit)
          (acc ++ page.Items)

/-- `GetItems` with the loop replaced by the claim's description. -/
def GetItemsSpec (fetchPage : Nat → ItemsResponse) (opts : ItemQueryOpts) (fuel : Nat) :
    Except String (Option ItemsResponse) :=
  if 25 ≤ opts.Limit ∧ opts.Limit ≤ 1000 then
    .ok ((getItemsSpecLoop fetchPage opts.Limit opts.Since fuel opts.StartIndex []).map
      fun allMovies => ⟨allMovies, (allMovies.length : Int), 0⟩)
  else .error "validation of query opts failed"

/-! ## Theorems for the claims -/

/-- The movie CASE over ingested nullable ids, rewritten by the value of
`SanitizeAndParseInt64`. -/
theorem matchKeyMovieCase_nullInt64 (a b : Int) (n : String) (rt : Int) :
    matchKeyMovieCase (nullInt64 a) (nullInt64 b) n rt =
      if a ≠ 0 then "imdb_" ++ toString a
      else if b ≠ 0 then "tmdb_" ++ toString b
      else "name_" ++ n ++ "_" ++ toString rt := by
  unfold nullInt64 matchKeyMovieCase
  by_cases ha : a ≠ 0 <;> by_cases hb : b ≠ 0 <;> simp [ha, hb]

/-- The episode CASE over ingested nullable ids. -/
theorem matchKeyEpisodeCase_nullInt64 (a b c : Int) (n sn se : String) (rt : Int) :
    matchKeyEpisodeCase (nullInt64 a) (nullInt64 b) (nullInt64 c) n sn se rt =
      if a ≠ 0 then "imdb_" ++ toString a
      else if b ≠ 0 then "tmdb_" ++ toString b
      else if c ≠ 0 then "tvdb_" ++ toString c
      else "name_" ++ n ++ "_" ++ sn ++ "_" ++ se ++ "_" ++ toString rt := by
  unfold nullInt64 matchKeyEpisodeCase
  by_cases ha : a ≠ 0 <;> by_cases hb : b ≠ 0 <;> by_cases hc : c ≠ 0 <;>
    simp [ha, hb, hc]

/-- C2 counterexample: for the item with IMDB id `"0"` and TMDB id `"603"`,
the code's match key falls through to the TMDB tier (the sanitized-and-parsed
IMDB value 0 is stored as NULL), while the claim's sanitization keeps `"0"`
as a usable id and demands the key `imdb_0`. -/
theorem c2_match_key_counterexample :
    movieMatchKeyOfItem
        { Name := "The Matrix", ID := "1",
          UserData := { PlaybackPositionTicks := 0, PlayedPercentage := 0,
                        IsFavorite := false, LastPlayedDate := none },
          ProviderIDs := { IMDB := "0", TMDB := "603", TVDB := "" },
          SeriesName := "", SeasonName := "", Runtime := 5000 } = "tmdb_603" ∧
    movieMatchKeySpec
        { Name := "The Matrix", ID := "1",
          UserData := { PlaybackPositionTicks := 0, PlayedPercentage := 0,
                        IsFavorite := false, LastPlayedDate := none },
          ProviderIDs := { IMDB := "0", TMDB := "603", TVDB := "" },
          SeriesName := "", SeasonName := "", Runtime := 5000 } = "imdb_0" ∧
    movieMatchKeyOfItem
        { Name := "The Matrix", ID := "1",
          UserData := { PlaybackPositionTicks := 0, PlayedPercentage := 0,
                        IsFavorite := false, LastPlayedDate := none },
          ProviderIDs := { IMDB := "0", TMDB := "603", TVDB := "" },
          SeriesName := "", SeasonName := "", Runtime := 5000 } ≠
      movieMatchKeySpec
        { Name := "The Matrix", ID := "1",
          UserData := { PlaybackPositionTicks := 0, PlayedPercentage := 0,
                        IsFavorite := false, LastPlayedDate := none },
          ProviderIDs := { IMDB := "0", TMDB := "603", TVDB := "" },
          SeriesName := "", SeasonName := "", Runtime := 5000 } := by
  refine ⟨by decide, by decide, by decide⟩

/-- C2 (amended): the match key is the pure tiered function of the item's
fields in which a provider-id tier applies exactly when
`SanitizeAndParseInt64` of its string (keep digits and minus signs, parse as
signed 64-bit decimal) is non-zero, the key rendering that parsed value;
otherwise the key falls through, down to the name fallback. -/
theorem c2_match_key_reference (it : Item) :
    movieMatchKeyOfItem it = movieMatchKeyAmended it ∧
      episodeMatchKeyOfItem it = episodeMatchKeyAmended it := by
  constructor
  · show matchKeyMovieCase (nullInt64 (SanitizeAndParseInt64 it.ProviderIDs.IMDB))
        (nullInt64 (SanitizeAndParseInt64 it.ProviderIDs.TMDB)) it.Name it.Runtime =
      movieMatchKeyAmended it
    rw [matchKeyMovieCase_nullInt64]
    rfl
  · show matchKeyEpisodeCase (nullInt64 (SanitizeAndParseInt64 it.ProviderIDs.IMDB))
        (nullInt64 (SanitizeAndParseInt64 it.ProviderIDs.TMDB))
        (nullInt64 (SanitizeAndParseInt64 it.ProviderIDs.TVDB))
        it.Name it.SeriesName it.SeasonName it.Runtime =
      episodeMatchKeyAmended it
    rw [matchKeyEpisodeCase_nullInt64]
    rfl

/-- C5: `InsertMovie`'s column list omits `last_seen`, which the schema
declares NOT NULL without a default, so ingesting a fresh item fails and
rolls back instead of stamping `last_seen`; at the failing input (one new
movie into an empty store) the post-fetch-and-prune table has no row for the
fetched item, refuting the claimed postcondition. -/
theorem c5_insert_never_sets_last_seen :
    InsertMovies "dd"
        [{ Name := "The Matrix", ID := "1",
           UserData := { PlaybackPositionTicks := 0, PlayedPercentage := 0,
                         IsFavorite := false, LastPlayedDate := none },
           ProviderIDs := { IMDB := "133093", TMDB := "603", TVDB := "" },
           SeriesName := "", SeasonName := "", Runtime := 5000 }] [] = ([], true) ∧
    fetchAndPruneMovies "dd"
        [{ Name := "The Matrix", ID := "1",
           UserData := { PlaybackPositionTicks := 0, PlayedPercentage := 0,
                         IsFavorite := false, LastPlayedDate := none },
           ProviderIDs := { IMDB := "133093", TMDB := "603", TVDB := "" },
           SeriesName := "", SeasonName := "", Runtime := 5000 }] 100 [] = ([], true) ∧
    ¬ ∃ r ∈ (fetchAndPruneMovies "dd"
        [{ Name := "The Matrix", ID := "1",
           UserData := { PlaybackPositionTicks := 0, PlayedPercentage := 0,
                         IsFavorite := false, LastPlayedDate := none },
           ProviderIDs := { IMDB := "133093", TMDB := "603", TVDB := "" },
           SeriesName := "", SeasonName := "", Runtime := 5000 }] 100 []).1,
      r.server = "dd" ∧ r.local_id = "1" := by
  refine ⟨by decide, by decide, by decide⟩

/-- C4 counterexample: two consecutive successful apply phases — an empty
stale set at `now = 1000`, then a one-item stale set whose `watched_date` is
500 with every remote write succeeding — store watermark 1000 and then 499:
the stored `last_sync` strictly decreases across successful cycles. -/
theorem c4_watermark_counterexample :
    (synchronizeSingleUpdatedUserData [] (fun _ => true) true 1000
        { lastSync := none, changelog := [] }).2 = false ∧
    (synchronizeSingleUpdatedUserData [] (fun _ => true) true 1000
        { lastSync := none, changelog := [] }).1.lastSync = some 1000 ∧
    (synchronizeSingleUpdatedUserData
        [{ LocalID := "1", Name := "The Matrix", SeriesName := "",
           WatchedDate := 500, WatchedProgress := 0,
           WatchedPositionTicks := 0, IsFavorite := false }]
        (fun _ => true) true 2000
        (synchronizeSingleUpdatedUserData [] (fun _ => true) true 1000
          { lastSync := none, changelog := [] }).1).2 = false ∧
    (synchronizeSingleUpdatedUserData
        [{ LocalID := "1", Name := "The Matrix", SeriesName := "",
           WatchedDate := 500, WatchedProgress := 0,
           WatchedPositionTicks := 0, IsFavorite := false }]
        (fun _ => true) true 2000
        (synchronizeSingleUpdatedUserData [] (fun _ => true) true 1000
          { lastSync := none, changelog := [] }).1).1.lastSync = some 499 ∧
    (499 : Int) < 1000 := by
  refine ⟨by decide, by decide, by decide, by decide, by decide⟩

/-- C4 (amended): a successful apply phase writes `now` when its stale set is
empty, so across successful cycles whose stale sets are all empty and whose
clock readings are non-decreasing (and at least the stored value), the stored
watermark never decreases; a successful cycle with a non-empty stale set
instead writes the batch minimum minus one, which may be below the stored
value (see the counterexample). -/
theorem c4_watermark_monotonic_for_empty_cycles (cycles : List CycleInput)
    (st : SyncState) (w : Int) (hw : st.lastSync = some w)
    (hempty : ∀ c ∈ cycles, c.updated = [])
    (hchain : List.Chain' (· ≤ ·) (w :: cycles.map (·.now))) :
    ∃ w2, (runCycles cycles st).lastSync = some w2 ∧ w ≤ w2 := by
  induction cycles generalizing st w with
  | nil => exact ⟨w, hw, le_refl w⟩
  | cons c cs ih =>
    have hc : c.updated = [] := hempty c (List.mem_cons_self _ _)
    have hrun : runCycles (c :: cs) st =
        runCycles cs { st with lastSync := some c.now } := by
      show runCycles cs
          (synchronizeSingleUpdatedUserData c.updated c.writeOk c.userIdOk c.now st).1 = _
      rw [hc]
      rfl
    rw [List.map_cons] at hchain
    rcases List.chain'_cons.mp hchain with ⟨hwn, hchain2⟩
    obtain ⟨w2, hw2, hle⟩ := ih { st with lastSync := some c.now } c.now rfl
      (fun d hd => hempty d (List.mem_cons_of_mem _ hd)) hchain2
    exact ⟨w2, hrun ▸ hw2, le_trans hwn hle⟩

/-- Witness for the amended C4 theorem at two empty cycles with clock
readings 5 and 9 starting from stored watermark 3. -/
theorem c4_watermark_monotonic_witness :
    ({ lastSync := some 3, changelog := [] } : SyncState).lastSync = some 3 ∧
    (∀ c ∈ [({ updated := [], writeOk := fun _ => true, userIdOk := true,
                now := 5 } : CycleInput),
            { updated := [], writeOk := fun _ => true, userIdOk := true,
                now := 9 }], c.updated = []) ∧
    List.Chain' (· ≤ ·) [(3 : Int), 5, 9] ∧
    ∃ w2, (runCycles
        [({ updated := [], writeOk := fun _ => true, userIdOk := true,
            now := 5 } : CycleInput),
          { updated := [], writeOk := fun _ => true, userIdOk := true,
            now := 9 }]
        { lastSync := some 3, changelog := [] }).lastSync = some w2 ∧ (3 : Int) ≤ w2 := by
  refine ⟨rfl, by decide, by norm_num [List.chain'_cons], ?_⟩
  exact c4_watermark_monotonic_for_empty_cycles _ _ 3 rfl (by decide)
    (by norm_num [List.chain'_cons])

/-! ## Helper lemmas for the apply-phase fold -/

theorem syncFold_fst (writeOk : ItemWithUpdatedUserData → Bool)
    (updated : List ItemWithUpdatedUserData) :
    ∀ (a : Int) (b : Bool) (c : List ChangelogData),
      (updated.foldl (syncWriteStep writeOk) (a, b, c)).1 =
        updated.foldl (fun acc i => if i.WatchedDate < acc then i.WatchedDate else acc) a := by
  induction updated with
  | nil => intro a b c; rfl
  | cons i is ih =>
    intro a b c
    rw [List.foldl_cons, List.foldl_cons]
    by_cases hw : writeOk i = true <;> simp only [syncWriteStep, hw] <;>
      simp only [if_true, if_false, Bool.false_eq_true] <;> apply ih

theorem syncFold_failed (writeOk : ItemWithUpdatedUserData → Bool)
    (updated : List ItemWithUpdatedUserData) :
    ∀ (a : Int) (b : Bool) (c : List ChangelogData),
      (updated.foldl (syncWriteStep writeOk) (a, b, c)).2.1 =
        (b || updated.any fun i => !(writeOk i)) := by
  induction updated with
  | nil => intro a b c; simp
  | cons i is ih =>
    intro a b c
    rw [List.foldl_cons, List.any_cons]
    by_cases hw : writeOk i = true
    · have hstep : syncWriteStep writeOk (a, b, c) i =
          (if i.WatchedDate < a then i.WatchedDate else a, b,
            c ++ [getChangelogData i]) := by
        simp [syncWriteStep, hw]
      rw [hstep, ih, hw]
      simp
    · have hw' : writeOk i = false := by
        cases h : writeOk i
        · rfl
        · exact absurd h hw
      have hstep : syncWriteStep writeOk (a, b, c) i =
          (if i.WatchedDate < a then i.WatchedDate else a, true, c) := by
        simp [syncWriteStep, hw']
      rw [hstep, ih, hw']
      simp

theorem foldl_min_if (l : List Int) : ∀ a : Int,
    l.foldl (fun acc x => if x < acc then x else acc) a = l.foldl min a := by
  induction l with
  | nil => intro a; rfl
  | cons x xs ih =>
    intro a
    rw [List.foldl_cons, List.foldl_cons, ih]
    congr 1
    rcases lt_or_ge x a with h | h
    · rw [if_pos h, min_eq_right (le_of_lt h)]
    · rw [if_neg (not_lt.mpr h), min_eq_left h]

theorem foldl_min_eq_of_isMin (l : List Int) : ∀ (a m : Int),
    (m ∈ l ∨ m = a) → (∀ x ∈ l, m ≤ x) → m ≤ a → l.foldl min a = m := by
  induction l with
  | nil =>
    intro a m hmem _ hle
    rcases hmem with h | h
    · exact absurd h (List.not_mem_nil _)
    · exact h.symm
  | cons x xs ih =>
    intro a m hmem hlb hle
    rw [List.foldl_cons]
    have hmx : m ≤ x := hlb x (List.mem_cons_self _ _)
    apply ih (min a x) m
    · rcases hmem with h | h
      · rcases List.mem_cons.mp h with hx | hxs
        · right
          rw [← hx]
          exact (min_eq_right hle).symm
        · left; exact hxs
      · right
        rw [h] at hle hmx ⊢
        exact (min_eq_left hmx).symm
    · exact fun y hy => hlb y (List.mem_cons_of_mem _ hy)
    · exact le_min hle hmx

/-- C3: after the apply phase for a server and item type (with the user id
resolved and every `watched_date` in the signed 64-bit range of the Go
`int64` it inhabits), the stored watermark equals the current time when the
stale set was empty; equals the batch minimum `watched_date` minus one when
the stale set was non-empty and every remote write succeeded; and is left
unchanged, with the aggregated error returned, when any remote write
failed. -/
theorem c3_apply_phase_watermark (updated : List ItemWithUpdatedUserData)
    (writeOk : ItemWithUpdatedUserData → Bool) (now : Int) (st : SyncState) :
    (updated = [] →
      synchronizeSingleUpdatedUserData updated writeOk true now st =
        ({ st with lastSync := some now }, false)) ∧
    (∀ m : Int, (∀ i ∈ updated, writeOk i = true) →
      (∀ i ∈ updated, i.WatchedDate ≤ maxInt64) →
      m ∈ updated.map (·.WatchedDate) → (∀ i ∈ updated, m ≤ i.WatchedDate) →
      (synchronizeSingleUpdatedUserData updated writeOk true now st).1.lastSync =
          some (m - 1) ∧
        (synchronizeSingleUpdatedUserData updated writeOk true now st).2 = false) ∧
    ((∃ i ∈ updated, writeOk i = false) →
      (synchronizeSingleUpdatedUserData updated writeOk true now st).1.lastSync =
          st.lastSync ∧
        (synchronizeSingleUpdatedUserData updated writeOk true now st).2 = true) := by
  have hnonempty : ∀ hne : updated ≠ [],
      synchronizeSingleUpdatedUserData updated writeOk true now st =
        if ¬ (updated.foldl (syncWriteStep writeOk)
            (maxInt64, false, st.changelog)).2.1 then
          ({ lastSync := some ((updated.foldl (syncWriteStep writeOk)
                (maxInt64, false, st.changelog)).1 - 1),
             changelog := (updated.foldl (syncWriteStep writeOk)
                (maxInt64, false, st.changelog)).2.2 }, false)
        else ({ st with changelog := (updated.foldl (syncWriteStep writeOk)
            (maxInt64, false, st.changelog)).2.2 }, true) := by
    intro hne
    rw [synchronizeSingleUpdatedUserData, if_neg hne]
    rw [if_neg (show ¬¬(true = true) by simp)]
  refine ⟨fun hnil => by rw [synchronizeSingleUpdatedUserData, if_pos hnil], ?_, ?_⟩
  · intro m hall hbound hmem hlb
    have hne : updated ≠ [] := by
      intro hnil
      rw [hnil] at hmem
      exact absurd hmem (List.not_mem_nil _)
    have hfail : (updated.foldl (syncWriteStep writeOk)
        (maxInt64, false, st.changelog)).2.1 = false := by
      rw [syncFold_failed]
      simp only [Bool.false_or, List.any_eq_false]
      intro i hi
      simp [hall i hi]
    have hfst : (updated.foldl (syncWriteStep writeOk)
        (maxInt64, false, st.changelog)).1 = m := by
      rw [syncFold_fst]
      have hconv : updated.foldl
          (fun acc i => if i.WatchedDate < acc then i.WatchedDate else acc) maxInt64 =
          (updated.map (·.WatchedDate)).foldl
            (fun acc x => if x < acc then x else acc) maxInt64 :=
        (List.foldl_map (fun i : ItemWithUpdatedUserData => i.WatchedDate)
          (fun acc x => if x < acc then x else acc) updated maxInt64).symm
      rw [hconv, foldl_min_if]
      rcases List.mem_map.mp hmem with ⟨i, hi, hwi⟩
      apply foldl_min_eq_of_isMin
      · left
        exact hmem
      · intro x hx
        rcases List.mem_map.mp hx with ⟨j, hj, hwj⟩
        exact hwj ▸ hlb j hj
      · exact hwi ▸ hbound i hi
    rw [hnonempty hne, if_pos (by rw [hfail]; simp)]
    exact ⟨by rw [hfst], rfl⟩
  · intro hex
    obtain ⟨i, hi, hwi⟩ := hex
    have hne : updated ≠ [] := by
      intro hnil
      rw [hnil] at hi
      exact absurd hi (List.not_mem_nil _)
    have hfail : (updated.foldl (syncWriteStep writeOk)
        (maxInt64, false, st.changelog)).2.1 = true := by
      rw [syncFold_failed]
      simp only [Bool.false_or, List.any_eq_true]
      exact ⟨i, hi, by simp [hwi]⟩
    rw [hnonempty hne, if_neg (by rw [hfail]; simp)]
    exact ⟨rfl, rfl⟩

/-- Witness for C3 at a singleton stale set with `watched_date` 500,
all-successful writes and clock 777: the watermark becomes 499. -/
theorem c3_apply_phase_witness :
    (∀ i ∈ [({ LocalID := "1", Name := "The Matrix", SeriesName := "",
               WatchedDate := 500, WatchedProgress := 0,
               WatchedPositionTicks := 0, IsFavorite := false }
             : ItemWithUpdatedUserData)], (fun _ => true) i = true) ∧
    (synchronizeSingleUpdatedUserData
        [{ LocalID := "1", Name := "The Matrix", SeriesName := "",
           WatchedDate := 500, WatchedProgress := 0,
           WatchedPositionTicks := 0, IsFavorite := false }]
        (fun _ => true) true 777
        { lastSync := none, changelog := [] }).1.lastSync = some 499 ∧
    (synchronizeSingleUpdatedUserData
        [{ LocalID := "1", Name := "The Matrix", SeriesName := "",
           WatchedDate := 500, WatchedProgress := 0,
           WatchedPositionTicks := 0, IsFavorite := false }]
        (fun _ => true) true 777
        { lastSync := none, changelog := [] }).2 = false := by
  have h := (c3_apply_phase_watermark
    [{ LocalID := "1", Name := "The Matrix", SeriesName := "",
       WatchedDate := 500, WatchedProgress := 0,
       WatchedPositionTicks := 0, IsFavorite := false }]
    (fun _ => true) 777 { lastSync := none, changelog := [] }).2.1 500
    (by decide) (by decide) (by decide) (by decide)
  exact ⟨by decide, h.1, h.2⟩

/-- Once the cooldown flag is set, every further event of the window is
rejected with `too many requests` and launches no sync. -/
theorem processSyncEvents_after_first (events : List EventSyncRequest) :
    ∀ (rs : List (Option String)) (n : Nat),
      events.foldl
        (fun acc _ =>
          if acc.1 = false then (true, acc.2.1 ++ [none], acc.2.2 + 1)
          else (acc.1, acc.2.1 ++ [some "too many requests"], acc.2.2))
        (true, rs, n) =
      (true, rs ++ List.replicate events.length (some "too many requests"), n) := by
  induction events with
  | nil => intro rs n; simp
  | cons e es ih =>
    intro rs n
    rw [List.foldl_cons]
    have hstep : (if (true : Bool) = false then
        (true, rs ++ [none], n + 1)
      else ((true : Bool), rs ++ [some "too many requests"], n)) =
        ((true : Bool), rs ++ [some "too many requests"], n) := by simp
    rw [hstep, ih]
    simp [List.replicate_succ, List.append_assoc]

/-- C6: starting with the cooldown flag clear, processing `N ≥ 1`
sync-request events within one cooldown window launches exactly one
`SyncOnce` (from the first event, which is answered `nil`), while each of the
other `N − 1` events is answered `too many requests` and launches no sync;
the flag ends set. -/
theorem c6_cooldown_shedding (events : List EventSyncRequest) (h : events ≠ []) :
    processSyncEvents false events =
      (true, none :: List.replicate (events.length - 1) (some "too many requests"), 1) := by
  cases events with
  | nil => exact absurd rfl h
  | cons e es =>
    rw [processSyncEvents, List.foldl_cons]
    have hstep : (if (false : Bool) = false then
        ((true : Bool), ([] : List (Option String)) ++ [none], 0 + 1)
      else (false, [] ++ [some "too many requests"], 0)) =
        ((true : Bool), [none], 1) := by simp
    rw [hstep, processSyncEvents_after_first]
    simp

/-- Witness for C6 at three webhook events: one accepted sync, two
rejections. -/
theorem c6_cooldown_shedding_witness :
    ([{ Source := "webhook", Metadata := "a" }, { Source := "webhook", Metadata := "b" },
        { Source := "webhook", Metadata := "c" }] : List EventSyncRequest) ≠ [] ∧
    processSyncEvents false
        [{ Source := "webhook", Metadata := "a" }, { Source := "webhook", Metadata := "b" },
          { Source := "webhook", Metadata := "c" }] =
      (true, none :: List.replicate 2 (some "too many requests"), 1) := by
  refine ⟨by decide, ?_⟩
  exact c6_cooldown_shedding _ (by decide)

/-- C7 counterexample: with servers `dd` and `ez` where only `dd`'s movie
fetch fails, both movie fetches and the whole episode pass still run and the
error is aggregated, but the movie apply phase runs for no server at all —
`syncMoviesWatchedState` returns the fetch error before
`synchronizeUpdatedUserData` — contradicting the claim that Phase B still
runs for every server of that item type. -/
theorem c7_fetch_error_counterexample :
    (SyncOnce ["dd", "ez"]
        (fun t s => !(t = ItemType.Movie ∧ s = "dd")) (fun _ _ => true)).1.fetched =
      [(ItemType.Movie, "dd"), (ItemType.Movie, "ez"),
        (ItemType.Episode, "dd"), (ItemType.Episode, "ez")] ∧
    (SyncOnce ["dd", "ez"]
        (fun t s => !(t = ItemType.Movie ∧ s = "dd")) (fun _ _ => true)).1.applied =
      [(ItemType.Episode, "dd"), (ItemType.Episode, "ez")] ∧
    (ItemType.Movie, "ez") ∉
      (SyncOnce ["dd", "ez"]
        (fun t s => !(t = ItemType.Movie ∧ s = "dd")) (fun _ _ => true)).1.applied ∧
    (SyncOnce ["dd", "ez"]
        (fun t s => !(t = ItemType.Movie ∧ s = "dd")) (fun _ _ => true)).2 = true := by
  refine ⟨by decide, by decide, by decide, by decide⟩

/-- C7 (amended): within a cycle, a Phase-A failure on one server is
aggregated without aborting the cycle — every server's fetch of both item
types is still attempted and the other item type is still fully processed —
but the apply phase of an item type runs (for all of its servers) exactly
when no fetch of that item type failed; any fetch failure makes the cycle's
aggregated error non-nil. -/
theorem c7_fetch_errors_do_not_abort_cycle (servers : List String)
    (fetchOk applyOk : ItemType → String → Bool) :
    (SyncOnce servers fetchOk applyOk).1.fetched =
        (servers.map fun s => (ItemType.Movie, s)) ++
          (servers.map fun s => (ItemType.Episode, s)) ∧
    (SyncOnce servers fetchOk applyOk).1.applied =
        (if servers.any fun s => ¬ fetchOk ItemType.Movie s then []
          else servers.map fun s => (ItemType.Movie, s)) ++
          (if servers.any fun s => ¬ fetchOk ItemType.Episode s then []
            else servers.map fun s => (ItemType.Episode, s)) ∧
    ((servers.any fun s => ¬ fetchOk ItemType.Movie s) = true →
      (SyncOnce servers fetchOk applyOk).2 = true) ∧
    ((servers.any fun s => ¬ fetchOk ItemType.Episode s) = true →
      (SyncOnce servers fetchOk applyOk).2 = true) := by
  cases hm : (servers.any fun s => ¬ fetchOk ItemType.Movie s) <;>
    cases he : (servers.any fun s => ¬ fetchOk ItemType.Episode s) <;>
      (unfold SyncOnce syncTypeWatchedState fetchUpdatesFromJellyfin
        synchronizeUpdatedUserData
       dsimp only
       rw [hm, he]
       simp)

/-- C10: with the user id resolved, a failed watermark read (in particular
`sql.ErrNoRows` when no state row exists yet, which `GetLastCheck` surfaces
as an error) does not fail or skip the server's fetch: the listing request is
still issued, with the full-listing options (limit 500, no since), and the
fetch outcome depends only on the downstream listing, upsert and prune. -/
theorem c10_watermark_read_failure_tolerated (stateRes : Except String Int)
    (msg : String) (cnt fullMins deltaMins : Nat) (t : ItemType)
    (getItemsOk insertOk pruneOk : Bool)
    (hres : stateRes = Except.error msg) :
    fetchUpdateFromJellyfin true stateRes cnt fullMins deltaMins t
        getItemsOk insertOk pruneOk =
      ({ queried :=
          some
            { Limit := 500
              Since := none
              StartIndex := 0
              SortBy := ""
              SortOrder := ""
              ItemsType := t }
         failed := (!getItemsOk || !insertOk || !pruneOk) } : FetchOutcome) ∧
    ∀ (stateTbl : List StateRow) (server ttype : String),
      (∀ r ∈ stateTbl, ¬ (r.server = server ∧ r.type = ttype)) →
      GetLastCheck stateTbl server ttype = .error "sql: no rows in result set" := by
  constructor
  · subst hres
    have hopts : getQueryOpts none cnt fullMins deltaMins t =
        { Limit := 500
          Since := none
          StartIndex := 0
          SortBy := ""
          SortOrder := ""
          ItemsType := t } := by
      rw [getQueryOpts,
        if_pos (show (none : Option Int).isNone = true ∨
          cnt % (fullMins / deltaMins) = 0 from Or.inl rfl)]
    rw [fetchUpdateFromJellyfin]
    rw [if_neg (show ¬¬(true = true) by simp)]
    show (if ¬getItemsOk then _ else if ¬insertOk then _ else _) = _
    cases getItemsOk <;> cases insertOk <;> cases pruneOk <;>
      simp [hopts]
  · intro stateTbl server ttype hnone
    rw [GetLastCheck]
    have : stateTbl.find? (fun r => r.server = server ∧ r.type = ttype) = none := by
      rw [List.find?_eq_none]
      intro r hr
      simp only [decide_eq_true_eq]
      exact hnone r hr
    rw [this]

/-- Witness for C10: a state-read error at concrete inputs still yields the
full-listing query options, and the empty state table has no watermark row. -/
theorem c10_watermark_read_failure_witness :
    (Except.error "no such table: state" : Except String Int) =
        Except.error "no such table: state" ∧
    fetchUpdateFromJellyfin true (Except.error "no such table: state") 3 360 5
        ItemType.Movie true true true =
      ({ queried :=
          some
            { Limit := 500
              Since := none
              StartIndex := 0
              SortBy := ""
              SortOrder := ""
              ItemsType := ItemType.Movie }
         failed := false } : FetchOutcome) ∧
    GetLastCheck [] "dd" "Movie" = .error "sql: no rows in result set" := by
  have h := c10_watermark_read_failure_tolerated (Except.error "no such table: state")
    "no such table: state" 3 360 5 ItemType.Movie true true true rfl
  exact ⟨rfl, h.1, h.2 [] "dd" "Movie" (by decide)⟩

/-- C8: for any server and batch, upserting the same batch twice through
`InsertMovies`/`InsertEpisodes` leaves each snapshot table in a state
identical to upserting it once, and preserves freedom from duplicate
`(server, local_id)` rows — the uniqueness constraint routes the second pass
through the DO UPDATE arm, which rewrites the fields with the same values
(and a batch containing any fresh item fails and rolls back both times,
likewise changing nothing). -/
theorem c8_idempotent_ingest (server : String) (movies episodes : List Item)
    (mtbl : List MovieRow) (etbl : List EpisodeRow)
    (hm : (mtbl.map movieRowKey).Nodup) (he : (etbl.map episodeRowKey).Nodup) :
    ((InsertMovies server movies (InsertMovies server movies mtbl).1).1 =
        (InsertMovies server movies mtbl).1 ∧
      ((InsertMovies server movies mtbl).1.map movieRowKey).Nodup) ∧
    ((InsertEpisodes server episodes (InsertEpisodes server episodes etbl).1).1 =
        (InsertEpisodes server episodes etbl).1 ∧
      ((InsertEpisodes server episodes etbl).1.map episodeRowKey).Nodup) := by
  constructor
  · exact upsertBatch_idem movieRowKey movieParamKey movieSetFields
      (fun r p => rfl) (fun r p q => rfl) hm
  · exact upsertBatch_idem episodeRowKey episodeParamKey episodeSetFields
      (fun r p => rfl) (fun r p q => rfl) he

/-- Witness for C8: a one-row table upserted twice with a batch updating that
row stays identical after the second pass. -/
theorem c8_idempotent_ingest_witness :
    (([({ server := "dd", local_id := "1", name := "The Matrix",
          imdb_id := some 133093, tmdb_id := some 603, runtime := 5000,
          watched_date := 0, watched_progress := 0, watched_position_ticks := 0,
          is_favorite := false, last_seen := 50 } : MovieRow)].map movieRowKey).Nodup ∧
      (([] : List EpisodeRow).map episodeRowKey).Nodup) ∧
    (InsertMovies "dd"
        [{ Name := "The Matrix", ID := "1",
           UserData := { PlaybackPositionTicks := 7, PlayedPercentage := 0,
                         IsFavorite := true, LastPlayedDate := some 1200 },
           ProviderIDs := { IMDB := "133093", TMDB := "603", TVDB := "" },
           SeriesName := "", SeasonName := "", Runtime := 5000 }]
        (InsertMovies "dd"
          [{ Name := "The Matrix", ID := "1",
             UserData := { PlaybackPositionTicks := 7, PlayedPercentage := 0,
                           IsFavorite := true, LastPlayedDate := some 1200 },
             ProviderIDs := { IMDB := "133093", TMDB := "603", TVDB := "" },
             SeriesName := "", SeasonName := "", Runtime := 5000 }]
          [{ server := "dd", local_id := "1", name := "The Matrix",
             imdb_id := some 133093, tmdb_id := some 603, runtime := 5000,
             watched_date := 0, watched_progress := 0, watched_position_ticks := 0,
             is_favorite := false, last_seen := 50 }]).1).1 =
      (InsertMovies "dd"
        [{ Name := "The Matrix", ID := "1",
           UserData := { PlaybackPositionTicks := 7, PlayedPercentage := 0,
                         IsFavorite := true, LastPlayedDate := some 1200 },
           ProviderIDs := { IMDB := "133093", TMDB := "603", TVDB := "" },
           SeriesName := "", SeasonName := "", Runtime := 5000 }]
        [{ server := "dd", local_id := "1", name := "The Matrix",
           imdb_id := some 133093, tmdb_id := some 603, runtime := 5000,
           watched_date := 0, watched_progress := 0, watched_position_ticks := 0,
           is_favorite := false, last_seen := 50 }]).1 := by
  refine ⟨⟨by decide, by decide⟩, ?_⟩
  exact ((c8_idempotent_ingest "dd" _ [] _ [] (by decide) (by decide)).1).1

/-- The page-walking loop of `Client.GetItems` computes exactly the
claim's per-page keep/stop algorithm. -/
theorem getItemsLoop_eq_spec (fetchPage : Nat → ItemsResponse) (limit : Nat)
    (since : Option Int) :
    ∀ (fuel startIndex : Nat) (acc : List Item),
      getItemsLoop fetchPage limit since fuel startIndex acc =
        getItemsSpecLoop fetchPage limit since fuel startIndex acc := by
  intro fuel
  induction fuel with
  | zero => intro s a; rfl
  | succ fuel ih =>
    intro startIndex acc
    cases since with
    | none =>
      simp only [getItemsLoop, getItemsSpecLoop]
      simp only [Bool.false_eq_true, or_false]
      split_ifs with hc
      · rfl
      · exact ih (startIndex + limit) _
    | some s =>
      simp only [getItemsLoop, getItemsSpecLoop]
      cases hl : (fetchPage startIndex).Items.getLast? with
      | none =>
        simp only [hl, Bool.false_eq_true, or_false]
        split_ifs with hc
        · rfl
        · exact ih (startIndex + limit) _
      | some lastEpisode =>
        simp only [hl]
        by_cases hb : timeBefore lastEpisode.UserData.LastPlayedDate s = true
        · simp only [hb, if_true, if_pos hb]
          simp only [or_true, if_true]
        · simp only [if_neg hb]
          simp only [Bool.false_eq_true, or_false]
          split_ifs with hc
          · rfl
          · exact ih (startIndex + limit) _

/-- C9: `Client.GetItems` implements the claim's pagination algorithm: with
no `since`, it collects whole pages and stops exactly when a page is short or
`start_index` plus the returned count reaches the reported total; with
`since`, it checks each page's last item, keeping only the items strictly
after `since` and stopping when that item plays strictly before `since`, and
otherwise keeping the whole page and walking on. -/
theorem c9_get_items_pagination (fetchPage : Nat → ItemsResponse)
    (opts : ItemQueryOpts) (fuel : Nat) :
    GetItems fetchPage opts fuel = GetItemsSpec fetchPage opts fuel ∧
    ∀ (startIndex : Nat) (acc : List Item),
      getItemsLoop fetchPage opts.Limit opts.Since fuel startIndex acc =
        getItemsSpecLoop fetchPage opts.Limit opts.Since fuel startIndex acc := by
  constructor
  · rw [GetItems, GetItemsSpec]
    by_cases hv : 25 ≤ opts.Limit ∧ opts.Limit ≤ 1000
    · rw [if_pos hv, if_pos hv, getItemsLoop_eq_spec]
    · rw [if_neg hv, if_neg hv]
  · intro s a
    exact getItemsLoop_eq_spec fetchPage opts.Limit opts.Since fuel s a

/-- A row is in the full diff result exactly when it is in the keyed view of
some match key. -/
theorem diffQuery_mem_iff {R O : Type} (srv key : R → String) (wd : R → Int)
    (mk : R → R → O) {tbl : List R} {S : String} {o : O} :
    o ∈ diffQuery srv key wd mk tbl S ↔
      ∃ K, o ∈ diffRowsForKey srv key wd mk tbl S K := by
  constructor
  · intro h
    rcases List.mem_filterMap.mp h with ⟨l, hl, hemit⟩
    refine ⟨key l, List.mem_filterMap.mpr ⟨l, ?_, hemit⟩⟩
    exact List.mem_filter.mpr ⟨hl, by simp⟩
  · rintro ⟨K, hK⟩
    exact diffRowsForKey_subset_diffQuery srv key wd mk hK

/-- C1: for both diff queries, under the schema's `(server, local_id)`
uniqueness (no duplicate physical rows) and the claim's presupposition that
the target server has at most one row per match key, the query returns a row
for `(S, K)` exactly when `S` has a row for `K` and some other server has a
row for `K` with `watched_date` strictly greater than `S`'s and strictly
positive; in that case exactly one row is returned for `(S, K)`, carrying
`S`'s `local_id` together with the user-data fields of a deterministically
chosen remote row attaining the maximum remote `watched_date`; and the full
query result is exactly the union of the keyed views. -/
theorem c1_diff_query_correctness (S K : String) (mtbl : List MovieRow)
    (etbl : List EpisodeRow)
    (hndM : (mtbl.map movieRowKey).Nodup)
    (huniqM : ∀ l1 ∈ mtbl, ∀ l2 ∈ mtbl, l1.server = S → l2.server = S →
      movieMatchKey l1 = K → movieMatchKey l2 = K → l1 = l2)
    (hndE : (etbl.map episodeRowKey).Nodup)
    (huniqE : ∀ l1 ∈ etbl, ∀ l2 ∈ etbl, l1.server = S → l2.server = S →
      episodeMatchKey l1 = K → episodeMatchKey l2 = K → l1 = l2) :
    ((diffRowsForKey (·.server) movieMatchKey (·.watched_date) mkMovieDiffRow
          mtbl S K ≠ [] ↔
        ∃ l ∈ mtbl, l.server = S ∧ movieMatchKey l = K ∧
          ∃ r ∈ mtbl, r.server ≠ S ∧ movieMatchKey r = K ∧
            l.watched_date < r.watched_date ∧ 0 < r.watched_date) ∧
      (∀ l ∈ mtbl, l.server = S → movieMatchKey l = K →
        (∃ r ∈ mtbl, r.server ≠ S ∧ movieMatchKey r = K ∧
          l.watched_date < r.watched_date ∧ 0 < r.watched_date) →
        ∃ b ∈ mtbl, b.server ≠ S ∧ movieMatchKey b = K ∧
          diffRemoteMax (·.server) movieMatchKey (·.watched_date) mtbl S K =
            some b.watched_date ∧
          diffRowsForKey (·.server) movieMatchKey (·.watched_date) mkMovieDiffRow
            mtbl S K = [mkMovieDiffRow l b]) ∧
      (∀ o : MovieDiffRow, o ∈ GetMovieWithGreatestWatchedDate mtbl S ↔
        ∃ K0, o ∈ diffRowsForKey (·.server) movieMatchKey (·.watched_date)
          mkMovieDiffRow mtbl S K0)) ∧
    ((diffRowsForKey (·.server) episodeMatchKey (·.watched_date) mkEpisodeDiffRow
          etbl S K ≠ [] ↔
        ∃ l ∈ etbl, l.server = S ∧ episodeMatchKey l = K ∧
          ∃ r ∈ etbl, r.server ≠ S ∧ episodeMatchKey r = K ∧
            l.watched_date < r.watched_date ∧ 0 < r.watched_date) ∧
      (∀ l ∈ etbl, l.server = S → episodeMatchKey l = K →
        (∃ r ∈ etbl, r.server ≠ S ∧ episodeMatchKey r = K ∧
          l.watched_date < r.watched_date ∧ 0 < r.watched_date) →
        ∃ b ∈ etbl, b.server ≠ S ∧ episodeMatchKey b = K ∧
          diffRemoteMax (·.server) episodeMatchKey (·.watched_date) etbl S K =
            some b.watched_date ∧
          diffRowsForKey (·.server) episodeMatchKey (·.watched_date) mkEpisodeDiffRow
            etbl S K = [mkEpisodeDiffRow l b]) ∧
      (∀ o : EpisodeDiffRow, o ∈ GetEpisodeWithGreatestWatchedDate etbl S ↔
        ∃ K0, o ∈ diffRowsForKey (·.server) episodeMatchKey (·.watched_date)
          mkEpisodeDiffRow etbl S K0)) := by
  refine ⟨⟨diffRowsForKey_ne_nil_iff _ _ _ _, ?_, ?_⟩,
    ⟨diffRowsForKey_ne_nil_iff _ _ _ _, ?_, ?_⟩⟩
  · intro l hl hls hlk hex
    exact diffRowsForKey_eq_singleton _ _ _ _ (List.Nodup.of_map _ hndM) hl hls hlk
      (fun b hb hbs hbk => huniqM b hb l hl hbs hls hbk hlk) hex
  · intro o
    exact diffQuery_mem_iff _ _ _ _
  · intro l hl hls hlk hex
    exact diffRowsForKey_eq_singleton _ _ _ _ (List.Nodup.of_map _ hndE) hl hls hlk
      (fun b hb hbs hbk => huniqE b hb l hl hbs hls hbk hlk) hex
  · intro o
    exact diffQuery_mem_iff _ _ _ _

/-- Witness for C1 at a two-server movie table (`dd` unwatched, `ez`
watched): the hypotheses hold and the query returns a row for `dd` and the
shared IMDB key. -/
theorem c1_diff_query_witness :
    (([({ server := "dd", local_id := "1", name := "The Matrix",
          imdb_id := some 133093, tmdb_id := some 603, runtime := 5000,
          watched_date := 0, watched_progress := 0, watched_position_ticks := 0,
          is_favorite := false, last_seen := 50 } : MovieRow),
        { server := "ez", local_id := "2", name := "The Matrix",
          imdb_id := some 133093, tmdb_id := some 603, runtime := 5000,
          watched_date := 1000, watched_progress := 0, watched_position_ticks := 7,
          is_favorite := true, last_seen := 50 }].map movieRowKey).Nodup) ∧
    (∀ l1 ∈
      [({ server := "dd", local_id := "1", name := "The Matrix",
          imdb_id := some 133093, tmdb_id := some 603, runtime := 5000,
          watched_date := 0, watched_progress := 0, watched_position_ticks := 0,
          is_favorite := false, last_seen := 50 } : MovieRow),
        { server := "ez", local_id := "2", name := "The Matrix",
          imdb_id := some 133093, tmdb_id := some 603, runtime := 5000,
          watched_date := 1000, watched_progress := 0, watched_position_ticks := 7,
          is_favorite := true, last_seen := 50 }],
      ∀ l2 ∈
      [({ server := "dd", local_id := "1", name := "The Matrix",
          imdb_id := some 133093, tmdb_id := some 603, runtime := 5000,
          watched_date := 0, watched_progress := 0, watched_position_ticks := 0,
          is_favorite := false, last_seen := 50 } : MovieRow),
        { server := "ez", local_id := "2", name := "The Matrix",
          imdb_id := some 133093, tmdb_id := some 603, runtime := 5000,
          watched_date := 1000, watched_progress := 0, watched_position_ticks := 7,
          is_favorite := true, last_seen := 50 }],
      l1.server = "dd" → l2.server = "dd" →
      movieMatchKey l1 = "imdb_133093" → movieMatchKey l2 = "imdb_133093" → l1 = l2) ∧
    diffRowsForKey (·.server) movieMatchKey (·.watched_date) mkMovieDiffRow
      [({ server := "dd", local_id := "1", name := "The Matrix",
          imdb_id := some 133093, tmdb_id := some 603, runtime := 5000,
          watched_date := 0, watched_progress := 0, watched_position_ticks := 0,
          is_favorite := false, last_seen := 50 } : MovieRow),
        { server := "ez", local_id := "2", name := "The Matrix",
          imdb_id := some 133093, tmdb_id := some 603, runtime := 5000,
          watched_date := 1000, watched_progress := 0, watched_position_ticks := 7,
          is_favorite := true, last_seen := 50 }] "dd" "imdb_133093" ≠ [] := by
  refine ⟨by decide, by decide, ?_⟩
  exact (c1_diff_query_correctness "dd" "imdb_133093" _ []
    (by decide) (by decide) (by decide) (by decide)).1.1.mpr (by decide)

/-- Witness for the amended C2 theorem at the counterexample's item shape
with a parseable IMDB id. -/
theorem c2_match_key_reference_witness :
    movieMatchKeyOfItem
        { Name := "The Matrix", ID := "1",
          UserData := { PlaybackPositionTicks := 0, PlayedPercentage := 0,
                        IsFavorite := false, LastPlayedDate := none },
          ProviderIDs := { IMDB := "tt0133093", TMDB := "603", TVDB := "" },
          SeriesName := "", SeasonName := "", Runtime := 5000 } =
      movieMatchKeyAmended
        { Name := "The Matrix", ID := "1",
          UserData := { PlaybackPositionTicks := 0, PlayedPercentage := 0,
                        IsFavorite := false, LastPlayedDate := none },
          ProviderIDs := { IMDB := "tt0133093", TMDB := "603", TVDB := "" },
          SeriesName := "", SeasonName := "", Runtime := 5000 } ∧
    episodeMatchKeyOfItem
        { Name := "The Matrix", ID := "1",
          UserData := { PlaybackPositionTicks := 0, PlayedPercentage := 0,
                        IsFavorite := false, LastPlayedDate := none },
          ProviderIDs := { IMDB := "tt0133093", TMDB := "603", TVDB := "" },
          SeriesName := "", SeasonName := "", Runtime := 5000 } =
      episodeMatchKeyAmended
        { Name := "The Matrix", ID := "1",
          UserData := { PlaybackPositionTicks := 0, PlayedPercentage := 0,
                        IsFavorite := false, LastPlayedDate := none },
          ProviderIDs := { IMDB := "tt0133093", TMDB := "603", TVDB := "" },
          SeriesName := "", SeasonName := "", Runtime := 5000 } :=
  c2_match_key_reference
    { Name := "The Matrix", ID := "1",
      UserData := { PlaybackPositionTicks := 0, PlayedPercentage := 0,
                    IsFavorite := false, LastPlayedDate := none },
      ProviderIDs := { IMDB := "tt0133093", TMDB := "603", TVDB := "" },
      SeriesName := "", SeasonName := "", Runtime := 5000 }

/-- Witness for the amended C7 theorem at two servers with all outcomes
successful. -/
theorem c7_fetch_errors_witness :
    (SyncOnce ["dd", "ez"] (fun _ _ => true) (fun _ _ => true)).1.fetched =
      ((["dd", "ez"].map fun s => (ItemType.Movie, s)) ++
        (["dd", "ez"].map fun s => (ItemType.Episode, s))) :=
  (c7_fetch_errors_do_not_abort_cycle ["dd", "ez"] (fun _ _ => true) (fun _ _ => true)).1

/-- Witness for C9 at a constant one-page server. -/
theorem c9_get_items_pagination_witness :
    GetItems (fun _ => { Items := [], TotalRecordCount := 0, StartIndex := 0 })
        { Limit := 25, Since := none, StartIndex := 0, SortBy := "",
          SortOrder := "", ItemsType := ItemType.Movie } 3 =
      GetItemsSpec (fun _ => { Items := [], TotalRecordCount := 0, StartIndex := 0 })
        { Limit := 25, Since := none, StartIndex := 0, SortBy := "",
          SortOrder := "", ItemsType := ItemType.Movie } 3 :=
  (c9_get_items_pagination (fun _ => { Items := [], TotalRecordCount := 0, StartIndex := 0 })
    { Limit := 25, Since := none, StartIndex := 0, SortBy := "",
      SortOrder := "", ItemsType := ItemType.Movie } 3).1

end Jellyporter
